import Mathlib

/-!
Verification development for the syncstart lobby session coordinator.

The coordinator state (lobbies, reverse connection indices, room membership
index, client registry) is embedded as Lean structures over association lists,
mirroring the JavaScript `Record`/`Map` objects of the source: insertion
updates an existing key in place or appends a fresh one, deletion removes the
key, and iteration follows insertion order.  The event handlers of the
gateway (`createLobby`, `joinLobby`, `updateMachine`, `selectSong`,
`leaveLobby`, `spectateLobby`, `searchLobby`, `lobbyState`) and the cleanup
paths (`disconnectMachine`, `disconnectSpectator`, the transport-disconnect
hook) are translated as pure state transitions; outward side effects
(force-disconnecting a client, broadcasting to a room) are recorded in an
append-only effect log.
-/

namespace SyncStart

/-! ## Association lists with JavaScript object semantics -/

/-- Look up the value stored at `key`, scanning in insertion order. -/
def lookupA {α : Type} : List (String × α) → String → Option α
  | [], _ => none
  | (k, v) :: rest, key => if k = key then some v else lookupA rest key

/-- Assignment `obj[key] = v`: replace the value at an existing key in place
(keeping its position), or append a fresh binding. -/
def insertA {α : Type} : List (String × α) → String → α → List (String × α)
  | [], key, v => [(key, v)]
  | (k, w) :: rest, key, v =>
    if k = key then (k, v) :: rest else (k, w) :: insertA rest key v

/-- Deletion `delete obj[key]`: remove the binding for `key` (a no-op when the
key is absent, matching `delete` on a JavaScript object). -/
def eraseA {α : Type} : List (String × α) → String → List (String × α)
  | [], _ => []
  | (k, w) :: rest, key =>
    if k = key then eraseA rest key else (k, w) :: eraseA rest key

/-- Key list of an association list (`Object.keys`). -/
def keysA {α : Type} (l : List (String × α)) : List String :=
  l.map (·.1)

/-- Key-presence test (`key in obj`). -/
def memA {α : Type} (l : List (String × α)) (key : String) : Bool :=
  (lookupA l key).isSome

/-- An association list is well formed when no key is bound twice, which is
automatic for JavaScript objects. -/
def NodupKeys {α : Type} (l : List (String × α)) : Prop :=
  (keysA l).Nodup

instance {α : Type} [DecidableEq α] (l : List (String × α)) : Decidable (NodupKeys l) := by
  unfold NodupKeys
  infer_instance

theorem lookupA_insertA_self {α : Type} (l : List (String × α)) (key : String) (v : α) :
    lookupA (insertA l key v) key = some v := by
  induction l with
  | nil => simp [insertA, lookupA]
  | cons p rest ih =>
    obtain ⟨k, w⟩ := p
    by_cases hk : k = key
    · simp [insertA, hk, lookupA]
    · simp [insertA, hk, lookupA, ih]

theorem lookupA_insertA_ne {α : Type} (l : List (String × α)) (key key' : String) (v : α)
    (h : key' ≠ key) : lookupA (insertA l key v) key' = lookupA l key' := by
  have hne : ¬ key = key' := fun hc => h hc.symm
  induction l with
  | nil => simp [insertA, lookupA, hne]
  | cons p rest ih =>
    obtain ⟨k, w⟩ := p
    by_cases hk : k = key
    · subst hk
      simp [insertA, lookupA, hne]
    · by_cases hk' : k = key'
      · simp [insertA, hk, lookupA, hk', h]
      · simp [insertA, hk, lookupA, hk', ih]

theorem lookupA_eraseA_self {α : Type} (l : List (String × α)) (key : String) :
    lookupA (eraseA l key) key = none := by
  induction l with
  | nil => simp [eraseA, lookupA]
  | cons p rest ih =>
    obtain ⟨k, w⟩ := p
    by_cases hk : k = key
    · simp [eraseA, hk, ih]
    · simp [eraseA, hk, lookupA, ih]

theorem lookupA_eraseA_ne {α : Type} (l : List (String × α)) (key key' : String)
    (h : key' ≠ key) : lookupA (eraseA l key) key' = lookupA l key' := by
  have hne : ¬ key = key' := fun hc => h hc.symm
  induction l with
  | nil => simp [eraseA]
  | cons p rest ih =>
    obtain ⟨k, w⟩ := p
    by_cases hk : k = key
    · subst hk
      simp [eraseA, lookupA, hne, ih]
    · by_cases hk' : k = key'
      · simp [eraseA, hk, lookupA, hk', h]
      · simp [eraseA, hk, lookupA, hk', ih]

theorem lookupA_eraseA_none {α : Type} (l : List (String × α)) (key key' : String)
    (h : lookupA l key' = none) : lookupA (eraseA l key) key' = none := by
  by_cases hk : key' = key
  · subst hk; exact lookupA_eraseA_self l key'
  · rw [lookupA_eraseA_ne l key key' hk]; exact h

theorem mem_insertA {α : Type} {l : List (String × α)} {key : String} {v : α}
    {p : String × α} (h : p ∈ insertA l key v) : p = (key, v) ∨ p ∈ l := by
  induction l with
  | nil => simpa [insertA] using h
  | cons q rest ih =>
    obtain ⟨k, w⟩ := q
    by_cases hk : k = key
    · subst hk
      rw [show insertA ((k, w) :: rest) k v = (k, v) :: rest from by simp [insertA]] at h
      rcases List.mem_cons.mp h with h1 | h1
      · exact Or.inl h1
      · exact Or.inr (List.mem_cons_of_mem _ h1)
    · rw [show insertA ((k, w) :: rest) key v = (k, w) :: insertA rest key v from by
        simp [insertA, hk]] at h
      rcases List.mem_cons.mp h with h1 | h1
      · exact Or.inr (by simp [h1])
      · rcases ih h1 with h2 | h2
        · exact Or.inl h2
        · exact Or.inr (List.mem_cons_of_mem _ h2)

theorem mem_eraseA {α : Type} {l : List (String × α)} {key : String}
    {p : String × α} : p ∈ eraseA l key ↔ p ∈ l ∧ p.1 ≠ key := by
  induction l with
  | nil => simp [eraseA]
  | cons q rest ih =>
    obtain ⟨k, w⟩ := q
    by_cases hk : k = key
    · subst hk
      rw [show eraseA ((k, w) :: rest) k = eraseA rest k from by simp [eraseA], ih]
      constructor
      · rintro ⟨hp, hne⟩
        exact ⟨List.mem_cons_of_mem _ hp, hne⟩
      · rintro ⟨hp, hne⟩
        rcases List.mem_cons.mp hp with h1 | h1
        · exact absurd (by rw [h1]) hne
        · exact ⟨h1, hne⟩
    · rw [show eraseA ((k, w) :: rest) key = (k, w) :: eraseA rest key from by
        simp [eraseA, hk]]
      constructor
      · intro hp
        rcases List.mem_cons.mp hp with h1 | h1
        · subst h1
          exact ⟨List.mem_cons_self _ _, by simpa using hk⟩
        · rcases ih.mp h1 with ⟨h2, h3⟩
          exact ⟨List.mem_cons_of_mem _ h2, h3⟩
      · rintro ⟨hp, hne⟩
        rcases List.mem_cons.mp hp with h1 | h1
        · exact h1 ▸ List.mem_cons_self _ _
        · exact List.mem_cons_of_mem _ (ih.mpr ⟨h1, hne⟩)

theorem lookupA_isSome_of_mem {α : Type} {l : List (String × α)} {p : String × α}
    (h : p ∈ l) : (lookupA l p.1).isSome := by
  induction l with
  | nil => cases h
  | cons q rest ih =>
    obtain ⟨k, w⟩ := q
    rcases List.mem_cons.mp h with h1 | h1
    · subst h1; simp [lookupA]
    · by_cases hk : k = p.1
      · simp [lookupA, hk]
      · simpa [lookupA, hk] using ih h1

theorem mem_of_lookupA {α : Type} {l : List (String × α)} {key : String} {v : α}
    (h : lookupA l key = some v) : (key, v) ∈ l := by
  induction l with
  | nil => simp [lookupA] at h
  | cons q rest ih =>
    obtain ⟨k, w⟩ := q
    by_cases hk : k = key
    · subst hk
      rw [show lookupA ((k, w) :: rest) k = some w from by simp [lookupA]] at h
      have hwv : w = v := by injection h
      subst hwv
      exact List.mem_cons_self _ _
    · rw [show lookupA ((k, w) :: rest) key = lookupA rest key from by
        simp [lookupA, hk]] at h
      exact List.mem_cons_of_mem _ (ih h)

theorem nodupKeys_cons {α : Type} {k : String} {w : α} {rest : List (String × α)}
    (h : NodupKeys ((k, w) :: rest)) : k ∉ keysA rest ∧ NodupKeys rest := by
  rw [NodupKeys, keysA, List.map_cons, List.nodup_cons] at h
  exact h

theorem lookupA_eq_some_of_mem {α : Type} {l : List (String × α)} {p : String × α}
    (hnd : NodupKeys l) (h : p ∈ l) : lookupA l p.1 = some p.2 := by
  induction l with
  | nil => cases h
  | cons q rest ih =>
    obtain ⟨k, w⟩ := q
    obtain ⟨hk1, hk2⟩ := nodupKeys_cons hnd
    rcases List.mem_cons.mp h with h1 | h1
    · subst h1; simp [lookupA]
    · by_cases hk : k = p.1
      · exact absurd (hk ▸ List.mem_map_of_mem (·.1) h1) hk1
      · simpa [lookupA, hk] using ih hk2 h1

theorem not_mem_keysA_of_lookupA_none {α : Type} {l : List (String × α)} {key : String}
    (h : lookupA l key = none) : key ∉ keysA l := by
  intro hmem
  rcases List.mem_map.mp hmem with ⟨p, hp, hk⟩
  have hs := lookupA_isSome_of_mem hp
  rw [hk, h] at hs
  simp at hs

theorem keysA_eraseA_subset {α : Type} {l : List (String × α)} {key x : String}
    (h : x ∈ keysA (eraseA l key)) : x ∈ keysA l := by
  rcases List.mem_map.mp h with ⟨p, hp, hx⟩
  exact hx ▸ List.mem_map_of_mem (·.1) (mem_eraseA.mp hp).1

theorem keysA_insertA_cases {α : Type} {l : List (String × α)} {key x : String} {v : α}
    (h : x ∈ keysA (insertA l key v)) : x = key ∨ x ∈ keysA l := by
  rcases List.mem_map.mp h with ⟨p, hp, hx⟩
  rcases mem_insertA hp with h1 | h1
  · left; rw [← hx, h1]
  · right; exact hx ▸ List.mem_map_of_mem (·.1) h1

theorem nodupKeys_eraseA {α : Type} {l : List (String × α)} (key : String)
    (h : NodupKeys l) : NodupKeys (eraseA l key) := by
  induction l with
  | nil => simp [eraseA, NodupKeys, keysA]
  | cons q rest ih =>
    obtain ⟨k, w⟩ := q
    obtain ⟨h1, h2⟩ := nodupKeys_cons h
    by_cases hk : k = key
    · rw [show eraseA ((k, w) :: rest) key = eraseA rest key from by simp [eraseA, hk]]
      exact ih h2
    · rw [show eraseA ((k, w) :: rest) key = (k, w) :: eraseA rest key from by
        simp [eraseA, hk]]
      rw [NodupKeys, keysA, List.map_cons, List.nodup_cons]
      exact ⟨fun hc => h1 (keysA_eraseA_subset hc), ih h2⟩

theorem nodupKeys_insertA {α : Type} {l : List (String × α)} (key : String) (v : α)
    (h : NodupKeys l) : NodupKeys (insertA l key v) := by
  induction l with
  | nil => simp [insertA, NodupKeys, keysA]
  | cons q rest ih =>
    obtain ⟨k, w⟩ := q
    obtain ⟨h1, h2⟩ := nodupKeys_cons h
    by_cases hk : k = key
    · rw [show insertA ((k, w) :: rest) key v = (k, v) :: rest from by simp [insertA, hk]]
      rw [NodupKeys, keysA, List.map_cons, List.nodup_cons]
      exact ⟨h1, h2⟩
    · rw [show insertA ((k, w) :: rest) key v = (k, w) :: insertA rest key v from by
        simp [insertA, hk]]
      rw [NodupKeys, keysA, List.map_cons, List.nodup_cons]
      refine ⟨fun hc => ?_, ih h2⟩
      rcases keysA_insertA_cases hc with h3 | h3
      · exact hk h3
      · exact h1 h3

theorem mem_insertA_nodup {α : Type} {l : List (String × α)} {key : String} {v : α}
    {p : String × α} (hnd : NodupKeys l) (h : p ∈ insertA l key v) :
    p = (key, v) ∨ (p ∈ l ∧ p.1 ≠ key) := by
  rcases mem_insertA h with h1 | h1
  · exact Or.inl h1
  · obtain ⟨a, b⟩ := p
    by_cases hk : a = key
    · subst hk
      have e1 : lookupA (insertA l a v) a = some b :=
        lookupA_eq_some_of_mem (nodupKeys_insertA a v hnd) h
      have e2 : lookupA (insertA l a v) a = some v := lookupA_insertA_self l a v
      rw [e2] at e1
      have hbv : v = b := by injection e1
      left
      rw [hbv]
    · exact Or.inr ⟨h1, hk⟩


/-! ## Data model

Mirrors `src/types/models.types.ts` (the revision used by the current
gateway).  The `Player` record is modelled from the spec: the
`models.types.ts` revision matching the current gateway (whose
`RETAINED_PLAYER_KEYS` are `playerId`, `profileName`, `screenName`, `ready`)
is not present under `src/`, so the spec field list {playerId, profileName,
screenName, ready, score?, progress?} is used, with the ephemeral
score/progress payloads kept opaque (the coordinator only stores and relays
them).  All fields are optional, as for any dynamically typed JavaScript
object; this is what makes the lodash `merge`/`pick` semantics uniform. -/

/-- One player on a cabinet.  Identity fields plus opaque ephemeral data. -/
structure Player where
  playerId : Option String
  profileName : Option String
  screenName : Option String
  ready : Option Bool
  score : Option String
  progress : Option String
deriving Repr, DecidableEq

/-- A machine entry inside a lobby (`Machine` in models.types.ts). -/
structure Machine where
  player1 : Option Player
  player2 : Option Player
  socketId : Option String
  ready : Option Bool
deriving Repr, DecidableEq

/-- The machine payload carried by createLobby / joinLobby / updateMachine
(`Omit<Machine, socketId>` in events.types.ts). -/
structure MachineU where
  player1 : Option Player
  player2 : Option Player
  ready : Option Bool
deriving Repr, DecidableEq

/-- A spectator entry (`Spectator` in models.types.ts). -/
structure Spectator where
  profileName : Option String
  socketId : Option String
deriving Repr, DecidableEq

/-- The spectator payload carried by spectateLobby; `{...spectator, socketId}`
always overrides the socket id, so only the profile name matters. -/
structure SpectatorU where
  profileName : Option String
deriving Repr, DecidableEq

/-- Song metadata (`SongInfo` in models.types.ts); immutable once stored. -/
structure SongInfo where
  songPath : String
  title : String
  artist : String
  stepartist : String
  songLength : Int
deriving Repr, DecidableEq

/-- A lobby (`Lobby` in models.types.ts).  `machines` and `spectators` are
JavaScript records keyed by socket id. -/
structure Lobby where
  code : String
  password : String
  machines : List (String × Machine)
  spectators : List (String × Spectator)
  songInfo : Option SongInfo
deriving Repr, DecidableEq

/-- Entry of the searchLobby response (`LobbyInfo`). -/
structure LobbyInfo where
  code : String
  isPasswordProtected : Bool
  playerCount : Nat
  spectatorCount : Nat
deriving Repr, DecidableEq

/-- Payload of a `responseStatus` event. -/
structure ResponseStatusPayload where
  event : String
  success : Bool
  message : Option String
deriving Repr, DecidableEq

/-- Mirrors `responseStatus(event, success, message)` of events/utils.ts. -/
def responseStatus (event : String) (success : Bool) (message : Option String) :
    ResponseStatusPayload :=
  { event := event, success := success, message := message }

/-- Mirrors `responseStatusFailure(event, message)` of events/utils.ts. -/
def responseStatusFailure (event message : String) : ResponseStatusPayload :=
  responseStatus event false (some message)

/-- Outward side effects requested from the connection registry, recorded in
order: a forced client disconnect, a room-scoped broadcast of the current
lobby state, or a direct send. -/
inductive Effect where
  | clientDisconnect (sid : String)
  | sendLobby (code : String)
deriving Repr, DecidableEq

/-- The global coordinator state: `LOBBYMAN` (lobbies plus the two reverse
connection indices), `ROOMMAN.rooms`, and the effect log. -/
structure ServerState where
  lobbies : List (String × Lobby)
  machineConnections : List (String × String)
  spectatorConnections : List (String × String)
  rooms : List (String × List String)
  effects : List Effect
deriving Repr, DecidableEq

/-- The state at process start: every table empty. -/
def initState : ServerState :=
  { lobbies := [], machineConnections := [], spectatorConnections := [],
    rooms := [], effects := [] }

/-! ## Room membership index (`ROOMMAN` in models.types.ts) -/

/-- Mirrors `ROOMMAN.join(socketId, code)`: create the room if absent, then
append the socket unless it is already a member (re-joining only logs a
warning). -/
def roomJoin (rooms : List (String × List String)) (sid code : String) :
    List (String × List String) :=
  let rooms1 := if (lookupA rooms code).isSome then rooms else insertA rooms code []
  let sockets := (lookupA rooms1 code).getD []
  if sid ∈ sockets then rooms1 else insertA rooms1 code (sockets ++ [sid])

/-- Mirrors `ROOMMAN.leave(socketId, code)`: filter the socket out of the
room; a no-op (with a warning) when the room or the member is absent. -/
def roomLeave (rooms : List (String × List String)) (sid code : String) :
    List (String × List String) :=
  match lookupA rooms code with
  | none => rooms
  | some sockets =>
    if sid ∈ sockets then insertA rooms code (sockets.filter (· ≠ sid)) else rooms

/-- Mirrors `ROOMMAN.isJoined(socketId, code)`. -/
def isJoinedRoom (rooms : List (String × List String)) (sid code : String) : Bool :=
  match lookupA rooms code with
  | none => false
  | some sockets => sid ∈ sockets

/-- One operation on the room membership index alone. -/
inductive RoomOp where
  | join (sid code : String)
  | leave (sid code : String)
deriving Repr, DecidableEq

/-- Run a sequence of room index operations from the empty index. -/
def runRoomOps (ops : List RoomOp) : List (String × List String) :=
  ops.foldl
    (fun rooms op =>
      match op with
      | RoomOp.join sid code => roomJoin rooms sid code
      | RoomOp.leave sid code => roomLeave rooms sid code)
    []

/-! ## Connection registry send primitive (`ClientService.sendLobby`)

The current `src/clients/client.service.ts` iterates the registry with a
`for..of` loop whose body executes `return` on the first client that is not
in the room, which exits the whole function rather than skipping the entry.
The embedding reproduces that control flow exactly.  Clients are the ordered
registry entries `(socketId, transportOpen)`; the result is the list of
socket ids actually sent to. -/

def sendLobbySvc (clients : List (String × Bool)) (rooms : List (String × List String))
    (code : String) : List String :=
  match clients with
  | [] => []
  | (sid, isOpen) :: rest =>
    if ¬ isJoinedRoom rooms sid code then []
    else (if isOpen then [sid] else []) ++ sendLobbySvc rest rooms code


/-! ## Lobby store and lifecycle manager

Embeds the handlers of the current events gateway together with the helpers
of events/utils.ts.  Each operation returns its reply (when the handler
returns a message for the originating socket) together with the successor
state.  Paths where the JavaScript would throw a `TypeError` on an undefined
lobby (the message loop catches the exception, leaving the state as mutated
so far) are returned as `Except.error ()`. -/

/-- Mirrors `canJoinLobby(code, password)` of events/utils.ts: the lobby must
exist, and either its stored password is falsy (empty, i.e. a public lobby)
or it equals the provided password. -/
def canJoinLobby (st : ServerState) (code password : String) : Bool :=
  match lookupA st.lobbies code with
  | none => false
  | some lobby => lobby.password = "" ∨ lobby.password = password

/-- The reading of `canJoinLobby` stated by the claim: the lobby exists and
the PROVIDED password is empty or the stored password equals it.  Kept for
comparison with the source function. -/
def canJoinLobbyClaim (st : ServerState) (code password : String) : Bool :=
  match lookupA st.lobbies code with
  | none => false
  | some lobby => password = "" ∨ lobby.password = password

/-- Mirrors `getPlayerCountForLobby(lobby)`: the number of occupied player
slots summed over all machines. -/
def getPlayerCountForLobby (lobby : Lobby) : Nat :=
  lobby.machines.foldl
    (fun n p =>
      n + (if (p.2 : Machine).player1.isSome then 1 else 0)
        + (if (p.2 : Machine).player2.isSome then 1 else 0))
    0

/-- Mirrors `inSongSelect(lobby)`: every present player of every machine
reports the `ScreenSelectMusic` screen. -/
def inSongSelect (lobby : Lobby) : Bool :=
  lobby.machines.all fun p =>
    (match (p.2 : Machine).player1 with
     | none => true
     | some pl => decide (pl.screenName = some "ScreenSelectMusic"))
    &&
    (match (p.2 : Machine).player2 with
     | none => true
     | some pl => decide (pl.screenName = some "ScreenSelectMusic"))

/-- Lodash `merge` of one incoming player object into a stored one: fields
that the source leaves undefined are skipped, everything else overwrites. -/
def mergePlayer (old incoming : Player) : Player :=
  { playerId := match incoming.playerId with | some v => some v | none => old.playerId
    profileName := match incoming.profileName with | some v => some v | none => old.profileName
    screenName := match incoming.screenName with | some v => some v | none => old.screenName
    ready := match incoming.ready with | some v => some v | none => old.ready
    score := match incoming.score with | some v => some v | none => old.score
    progress := match incoming.progress with | some v => some v | none => old.progress }

/-- Merge of an optional player slot: an absent source slot leaves the stored
slot alone; an absent stored slot adopts the incoming player. -/
def mergePlayerSlot (old : Option Player) (incoming : Option Player) : Option Player :=
  match incoming with
  | none => old
  | some pNew =>
    match old with
    | none => some pNew
    | some pOld => some (mergePlayer pOld pNew)

/-- Lodash `merge(lobby.machines[socketId], machine)` at the machine level;
the payload has no `socketId` field, so that field is untouched. -/
def mergeMachine (old : Machine) (incoming : MachineU) : Machine :=
  { player1 := mergePlayerSlot old.player1 incoming.player1
    player2 := mergePlayerSlot old.player2 incoming.player2
    socketId := old.socketId
    ready := match incoming.ready with | some v => some v | none => old.ready }

/-- Lodash `pick(player, RETAINED_PLAYER_KEYS)` with
`RETAINED_PLAYER_KEYS = [playerId, profileName, screenName, ready]`:
the ephemeral score/progress fields are dropped. -/
def pickRetained (p : Player) : Player :=
  { p with score := none, progress := none }

/-- The per-machine part of the reset branch of `updateMachine`. -/
def resetMachine (m : Machine) : Machine :=
  { m with player1 := m.player1.map pickRetained, player2 := m.player2.map pickRetained }

/-- Builds the stored machine `{...machine, socketId}` from the payload. -/
def machineOfU (u : MachineU) (sid : String) : Machine :=
  { player1 := u.player1, player2 := u.player2, socketId := some sid, ready := u.ready }

/-- Appends the room-broadcast effect of `broadcastLobbyState(code)` /
`CLIENTS.sendLobby(getLobbyState(code), code)`; always called with an
existing lobby. -/
def broadcastLobbyState (code : String) (st : ServerState) : ServerState :=
  { st with effects := st.effects ++ [Effect.sendLobby code] }

/-- Mirrors `disconnectSpectator(socketId)` of events/utils.ts. -/
def disconnectSpectator (sid : String) (st : ServerState) : Bool × ServerState :=
  match lookupA st.spectatorConnections sid with
  | none => (false, st)
  | some code =>
    match lookupA st.lobbies code with
    | none => (false, st)
    | some lobby =>
      match lookupA lobby.spectators sid with
      | none => (false, st)
      | some spectator =>
        let st1 :=
          match spectator.socketId with
          | some ssid => { st with rooms := roomLeave st.rooms ssid code }
          | none => st
        let lobby1 := { lobby with spectators := eraseA lobby.spectators sid }
        (true,
          { st1 with
            lobbies := insertA st1.lobbies code lobby1
            spectatorConnections := eraseA st1.spectatorConnections sid })

/-- The spectator loop of `disconnectMachine`: each spectator with a socket
id leaves the room, is force-disconnected through the registry, and loses its
reverse-index entry. -/
def dropSpectators (specs : List (String × Spectator)) (code : String)
    (st : ServerState) : ServerState :=
  match specs with
  | [] => st
  | (_, sp) :: rest =>
    let st1 :=
      match sp.socketId with
      | some ssid =>
        { st with
          rooms := roomLeave st.rooms ssid code
          effects := st.effects ++ [Effect.clientDisconnect ssid]
          spectatorConnections := eraseA st.spectatorConnections ssid }
      | none => st
    dropSpectators rest code st1

/-- Mirrors the gateway's private `disconnectMachine(socketId)`: remove the
machine entry and its indices, then either tear the lobby down (zero
remaining players: force-disconnect every spectator and delete the lobby) or
broadcast the updated state to the remaining room. -/
def disconnectMachine (sid : String) (st : ServerState) : Bool × ServerState :=
  match lookupA st.machineConnections sid with
  | none => (false, st)
  | some code =>
    match lookupA st.lobbies code with
    | none => (false, st)
    | some lobby =>
      match lookupA lobby.machines sid with
      | none => (false, st)
      | some machine =>
        let st1 :=
          match machine.socketId with
          | some msid =>
            { st with
              machineConnections := eraseA st.machineConnections msid
              rooms := roomLeave st.rooms msid code }
          | none => st
        let lobby1 := { lobby with machines := eraseA lobby.machines sid }
        let st2 :=
          { st1 with
            lobbies := insertA st1.lobbies code lobby1
            machineConnections := eraseA st1.machineConnections sid }
        if getPlayerCountForLobby lobby1 = 0 then
          let st3 := dropSpectators lobby1.spectators code st2
          (true, { st3 with lobbies := eraseA st3.lobbies code })
        else
          (true, broadcastLobbyState code st2)

/-- The `if (socketId in spectatorConnections) disconnectSpectator(socketId)`
pre-emption step shared by createLobby and joinLobby. -/
def preemptSpectator (sid : String) (st : ServerState) : ServerState :=
  if memA st.spectatorConnections sid then (disconnectSpectator sid st).2 else st

/-- The `if (socketId in machineConnections) disconnectMachine(socketId)`
pre-emption step shared by createLobby and joinLobby. -/
def preemptMachine (sid : String) (st : ServerState) : ServerState :=
  if memA st.machineConnections sid then (disconnectMachine sid st).2 else st

/-- Mirrors the gateway's `createLobby`.  The random generation loop `while
(code in lobbies) code = generateLobbyCode()` draws fresh codes until one is
unused, so the chosen code is a parameter; an occupied code means the draw is
re-rolled, modelled as leaving the state unchanged (the eventually executed
creation is the call with a fresh code). -/
def createLobby (sid code : String) (machine : MachineU) (password : String)
    (st : ServerState) : ServerState :=
  let st1 := preemptSpectator sid st
  let st2 := preemptMachine sid st1
  if (lookupA st2.lobbies code).isSome then st2
  else
    let lobby : Lobby :=
      { code := code, password := password
        machines := [(sid, machineOfU machine sid)]
        spectators := [], songInfo := none }
    let st3 :=
      { st2 with
        lobbies := insertA st2.lobbies code lobby
        rooms := roomJoin st2.rooms sid code
        machineConnections := insertA st2.machineConnections sid code }
    broadcastLobbyState code st3

/-- Mirrors the gateway's `joinLobby`.  Note the two precondition checks of
the source (`machines.length >= 4`, `lobby.songInfo` set) construct a
`responseStatusFailure` whose value is discarded without `return`, so they
have no effect on control flow or state; the machine is inserted regardless.
When the pre-emption deleted the very lobby being joined, the subsequent
`lobby.machines` access throws (`Except.error`). -/
def joinLobby (sid : String) (machine : MachineU) (code password : String)
    (st : ServerState) : Except Unit (Option ResponseStatusPayload) × ServerState :=
  if ¬ canJoinLobby st code password then
    (Except.ok (some (responseStatus "joinLobby" false
      (some "Cannot join lobby. Check the code + password and try again."))), st)
  else
    let st1 := preemptSpectator sid st
    let st2 := preemptMachine sid st1
    match lookupA st2.lobbies code with
    | none => (Except.error (), st2)
    | some lobby =>
      let lobby1 := { lobby with machines := insertA lobby.machines sid (machineOfU machine sid) }
      let st3 :=
        { st2 with
          lobbies := insertA st2.lobbies code lobby1
          rooms := roomJoin st2.rooms sid code
          machineConnections := insertA st2.machineConnections sid code }
      (Except.ok none, broadcastLobbyState code st3)

/-- The lobby after `merge(lobby.machines[socketId], machine)`: merging into
an undefined entry mutates nothing. -/
def mergedLobby (lobby : Lobby) (sid : String) (u : MachineU) : Lobby :=
  match lookupA lobby.machines sid with
  | none => lobby
  | some m => { lobby with machines := insertA lobby.machines sid (mergeMachine m u) }

/-- Mirrors the gateway's `updateMachine`: merge the payload into the stored
machine, and on the transition into "all players in song select" clear the
song and strip every player down to the retained keys. -/
def updateMachine (sid : String) (u : MachineU) (st : ServerState) :
    Except Unit (Option ResponseStatusPayload) × ServerState :=
  match lookupA st.machineConnections sid with
  | none => (Except.ok (some (responseStatusFailure "updateMachine" "Machine not found")), st)
  | some code =>
    match lookupA st.lobbies code with
    | none => (Except.error (), st)
    | some lobby =>
      let before := inSongSelect lobby
      let lobby1 := mergedLobby lobby sid u
      let after := inSongSelect lobby1
      let lobby2 :=
        if ¬ before ∧ after then
          { lobby1 with
            songInfo := none
            machines := lobby1.machines.map fun p => (p.1, resetMachine p.2) }
        else lobby1
      let st1 := { st with lobbies := insertA st.lobbies code lobby2 }
      (Except.ok none, broadcastLobbyState lobby2.code st1)

/-- Mirrors the gateway's `selectSong`. -/
def selectSong (sid : String) (songInfo : SongInfo) (st : ServerState) :
    Except Unit (Option ResponseStatusPayload) × ServerState :=
  match lookupA st.machineConnections sid with
  | none => (Except.ok (some (responseStatusFailure "selectSong" "Machine not found")), st)
  | some code =>
    match lookupA st.lobbies code with
    | none => (Except.error (), st)
    | some lobby =>
      if lobby.songInfo.isSome then
        (Except.ok (some (responseStatusFailure "selectSong" "Song already selected")), st)
      else
        let st1 := { st with lobbies := insertA st.lobbies code { lobby with songInfo := some songInfo } }
        (Except.ok none, broadcastLobbyState code st1)

/-- Mirrors the gateway's `leaveLobby`: the `lobbyLeft{left}` reply plus the
state after `disconnectMachine`. -/
def leaveLobby (sid : String) (st : ServerState) : Bool × ServerState :=
  disconnectMachine sid st

/-- Mirrors the gateway's `spectateLobby`; the reply is the
`lobbySpectated{spectators}` count, read from the live lobby object after the
optional insertion. -/
def spectateLobby (sid : String) (spec : SpectatorU) (code password : String)
    (st : ServerState) : Nat × ServerState :=
  match lookupA st.lobbies code with
  | none => (0, st)
  | some lobby =>
    if ¬ memA st.machineConnections sid ∧ canJoinLobby st code password then
      let st1 := preemptSpectator sid st
      match lookupA st1.lobbies code with
      | some lobby1 =>
        let lobby2 :=
          { lobby1 with
            spectators := insertA lobby1.spectators sid
              { profileName := spec.profileName, socketId := some sid } }
        let st2 :=
          { st1 with
            lobbies := insertA st1.lobbies code lobby2
            rooms := roomJoin st1.rooms sid code
            spectatorConnections := insertA st1.spectatorConnections sid code }
        (lobby2.spectators.length, st2)
      | none => (0, st1)
    else
      (lobby.spectators.length, st)

/-- Mirrors the gateway's `searchLobby` snapshot. -/
def searchLobby (st : ServerState) : List LobbyInfo :=
  st.lobbies.map fun p =>
    { code := (p.2 : Lobby).code
      isPasswordProtected := (p.2 : Lobby).password.length ≠ 0
      playerCount := getPlayerCountForLobby p.2
      spectatorCount := (p.2 : Lobby).spectators.length }

/-- Mirrors the gateway's `lobbyState` handler: re-broadcast on request.  A
dangling machine index makes `getLobbyState` throw. -/
def lobbyStateOp (sid : String) (st : ServerState) :
    Except Unit (Option ResponseStatusPayload) × ServerState :=
  match lookupA st.machineConnections sid with
  | none => (Except.ok (some (responseStatusFailure "lobbyState" "Machine not found")), st)
  | some code =>
    match lookupA st.lobbies code with
    | none => (Except.error (), st)
    | some _ => (Except.ok none, broadcastLobbyState code st)

/-- Mirrors the gateway's `handleDisconnect`: deregister the client, then run
the machine teardown and/or the spectator teardown for the socket. -/
def handleDisconnect (sid : String) (st : ServerState) : ServerState :=
  let st1 := st
  let st2 := if memA st1.machineConnections sid then (disconnectMachine sid st1).2 else st1
  if memA st2.spectatorConnections sid then (disconnectSpectator sid st2).2 else st2

/-- One inbound event (or transport disconnect) for the coordinator. -/
inductive Op where
  | createLobby (sid code : String) (machine : MachineU) (password : String)
  | joinLobby (sid : String) (machine : MachineU) (code password : String)
  | updateMachine (sid : String) (machine : MachineU)
  | selectSong (sid : String) (songInfo : SongInfo)
  | leaveLobby (sid : String)
  | spectateLobby (sid : String) (spec : SpectatorU) (code password : String)
  | searchLobby
  | lobbyState (sid : String)
  | disconnect (sid : String)
deriving Repr

/-- The state transition of one operation (replies discarded). -/
def step (op : Op) (st : ServerState) : ServerState :=
  match op with
  | Op.createLobby sid code machine password => createLobby sid code machine password st
  | Op.joinLobby sid machine code password => (joinLobby sid machine code password st).2
  | Op.updateMachine sid machine => (updateMachine sid machine st).2
  | Op.selectSong sid songInfo => (selectSong sid songInfo st).2
  | Op.leaveLobby sid => (leaveLobby sid st).2
  | Op.spectateLobby sid spec code password => (spectateLobby sid spec code password st).2
  | Op.searchLobby => st
  | Op.lobbyState sid => (lobbyStateOp sid st).2
  | Op.disconnect sid => handleDisconnect sid st

/-- Run a sequence of operations from the empty coordinator state. -/
def run (ops : List Op) : ServerState :=
  ops.foldl (fun st op => step op st) initState


/-! ## Room index lemmas -/

/-- After a join, the room holds the socket. -/
theorem roomJoin_mem_self (rooms : List (String × List String)) (sid code : String) :
    ∃ s, lookupA (roomJoin rooms sid code) code = some s ∧ sid ∈ s := by
  cases h : lookupA rooms code with
  | none =>
    refine ⟨[sid], ?_, by simp⟩
    simp [roomJoin, h, lookupA_insertA_self]
  | some s0 =>
    by_cases hm : sid ∈ s0
    · exact ⟨s0, by simp [roomJoin, h, hm], hm⟩
    · refine ⟨s0 ++ [sid], ?_, by simp⟩
      simp [roomJoin, h, hm, lookupA_insertA_self]

/-- Joining a room one is already in leaves the index unchanged. -/
theorem roomJoin_already (rooms : List (String × List String)) (sid code : String)
    (s : List String) (h : lookupA rooms code = some s) (hm : sid ∈ s) :
    roomJoin rooms sid code = rooms := by
  simp [roomJoin, h, hm]

/-- No room of the index holds a duplicated member. -/
def RoomsNodup (rooms : List (String × List String)) : Prop :=
  ∀ code, ((lookupA rooms code).getD []).Nodup

theorem roomsNodup_roomJoin (rooms : List (String × List String)) (sid code : String)
    (h : RoomsNodup rooms) : RoomsNodup (roomJoin rooms sid code) := by
  intro c
  cases hx : lookupA rooms code with
  | none =>
    by_cases hc : c = code
    · subst hc
      simp [roomJoin, hx, lookupA_insertA_self]
    · have hne : c ≠ code := hc
      simp only [roomJoin, hx, Option.isSome_none, Bool.false_eq_true, if_false,
        lookupA_insertA_self, Option.getD_some, List.not_mem_nil, if_false,
        List.nil_append]
      rw [lookupA_insertA_ne _ code c [sid] hne, lookupA_insertA_ne _ code c [] hne]
      exact h c
  | some s0 =>
    by_cases hm : sid ∈ s0
    · simpa [roomJoin, hx, hm] using h c
    · by_cases hc : c = code
      · subst hc
        have h0 : s0.Nodup := by simpa [hx] using h c
        simp only [roomJoin, hx, Option.isSome_some, if_true, Option.getD_some, hm,
          if_false, lookupA_insertA_self, Option.getD_some]
        simp [List.nodup_append, h0, hm]
      · have hne : c ≠ code := hc
        simp only [roomJoin, hx, Option.isSome_some, if_true, Option.getD_some, hm,
          if_false]
        rw [lookupA_insertA_ne _ code c _ hne]
        exact h c

theorem roomsNodup_roomLeave (rooms : List (String × List String)) (sid code : String)
    (h : RoomsNodup rooms) : RoomsNodup (roomLeave rooms sid code) := by
  intro c
  cases hx : lookupA rooms code with
  | none => simpa [roomLeave, hx] using h c
  | some s0 =>
    by_cases hm : sid ∈ s0
    · by_cases hc : c = code
      · subst hc
        have h0 : s0.Nodup := by simpa [hx] using h c
        simp only [roomLeave, hx, hm, if_true, lookupA_insertA_self, Option.getD_some]
        exact h0.filter _
      · have hne : c ≠ code := hc
        simp only [roomLeave, hx, hm, if_true]
        rw [lookupA_insertA_ne _ code c _ hne]
        exact h c
    · simpa [roomLeave, hx, hm] using h c

theorem roomsNodup_runRoomOps (ops : List RoomOp) : RoomsNodup (runRoomOps ops) := by
  suffices h : ∀ rooms, RoomsNodup rooms →
      RoomsNodup (ops.foldl
        (fun rooms op =>
          match op with
          | RoomOp.join sid code => roomJoin rooms sid code
          | RoomOp.leave sid code => roomLeave rooms sid code)
        rooms) by
    exact h [] (fun c => by simp [lookupA])
  induction ops with
  | nil => intro rooms h; simpa using h
  | cons op rest ih =>
    intro rooms h
    cases op with
    | join sid code => exact ih _ (roomsNodup_roomJoin rooms sid code h)
    | leave sid code => exact ih _ (roomsNodup_roomLeave rooms sid code h)

/-! ## Demonstration fixtures used by witnesses and counterexamples -/

/-- A player sitting on the song select screen. -/
def demoPlayerSelect : Player :=
  { playerId := some "P1", profileName := some "teejusb",
    screenName := some "ScreenSelectMusic", ready := some false,
    score := none, progress := none }

/-- A player mid-gameplay, carrying ephemeral score and progress data. -/
def demoPlayerGameplay : Player :=
  { playerId := some "P1", profileName := some "teejusb",
    screenName := some "ScreenGameplay", ready := some false,
    score := some "0.99", progress := some "1/2" }

/-- A single-player machine payload. -/
def machineUOf (pl : Option Player) : MachineU :=
  { player1 := pl, player2 := none, ready := none }

/-- The WOWIE song of the repository's own test suite. -/
def wowie : SongInfo :=
  { songPath := "11 guys/wowie", title := "WOWIE", artist := "the guys",
    stepartist := "", songLength := 42069 }

/-- The second, rejected song selection. -/
def songUpdated : SongInfo := { wowie with title := "Updated" }

/-- Create a lobby and fill it to the 4-machine cap. -/
def demoOpsFour : List Op :=
  [Op.createLobby "m1" "AAAA" (machineUOf (some demoPlayerSelect)) "",
   Op.joinLobby "m2" (machineUOf none) "AAAA" "",
   Op.joinLobby "m3" (machineUOf none) "AAAA" "",
   Op.joinLobby "m4" (machineUOf none) "AAAA" ""]

/-- Create a lobby and select a song in it. -/
def demoOpsSong : List Op :=
  [Op.createLobby "m1" "AAAA" (machineUOf (some demoPlayerSelect)) "",
   Op.selectSong "m1" wowie]

/-- The lobby stored after `demoOpsSong`. -/
def demoLobbySong : Lobby :=
  { code := "AAAA", password := ""
    machines := [("m1",
      { player1 := some demoPlayerSelect, player2 := none,
        socketId := some "m1", ready := none })]
    spectators := [], songInfo := some wowie }

/-- A single fresh lobby created by machine `m1`. -/
def demoOpsOne : List Op :=
  [Op.createLobby "m1" "AAAA" (machineUOf (some demoPlayerSelect)) ""]

/-- The lobby stored after `demoOpsOne`. -/
def demoLobbyOne : Lobby :=
  { code := "AAAA", password := ""
    machines := [("m1",
      { player1 := some demoPlayerSelect, player2 := none,
        socketId := some "m1", ready := none })]
    spectators := [], songInfo := none }

/-- A state holding one password-protected lobby. -/
def demoStateSecret : ServerState :=
  { lobbies := [("AAAA",
      { code := "AAAA", password := "secret"
        machines := [("m1",
          { player1 := some demoPlayerSelect, player2 := none,
            socketId := some "m1", ready := none })]
        spectators := [], songInfo := none })]
    machineConnections := [("m1", "AAAA")]
    spectatorConnections := []
    rooms := [("AAAA", ["m1"])]
    effects := [] }

/-! ## Claim theorems (part 1) -/

deriving instance DecidableEq for Except

/-- C1 (code bug evaluation).  The claim says a join into a 4-machine lobby
fails with a returned failure response and no machine entry is inserted.  The
source constructs `responseStatusFailure` for the full-lobby and
song-selected checks but never returns it, so a 5th machine joining a full
4-machine lobby with correct credentials is inserted anyway and the handler
returns no failure: the lobby ends with 5 machine entries, among them the
newcomer. -/
theorem joinLobbyFifthMachineInserted :
    (lookupA (run demoOpsFour).lobbies "AAAA").map (fun l => l.machines.length) = some 4 ∧
    (joinLobby "m5" (machineUOf none) "AAAA" "" (run demoOpsFour)).1 = Except.ok none ∧
    (lookupA (joinLobby "m5" (machineUOf none) "AAAA" "" (run demoOpsFour)).2.lobbies
        "AAAA").map (fun l => l.machines.length) = some 5 ∧
    ((lookupA (joinLobby "m5" (machineUOf none) "AAAA" "" (run demoOpsFour)).2.lobbies
        "AAAA").map (fun l => memA l.machines "m5")) = some true := by
  decide

/-- C2 (code bug evaluation).  `ClientService.sendLobby` is supposed to skip
registry entries that are not in the room, but its loop body executes
`return`, aborting the whole send; with the registry ordered
`[a (not a member), b (member, open)]` the room member `b` receives
nothing. -/
theorem sendLobbyAbortsAtNonMember :
    sendLobbySvc [("a", true), ("b", true)] [("ROOM", ["b"])] "ROOM" = [] ∧
    isJoinedRoom [("ROOM", ["b"])] "b" "ROOM" = true := by
  decide

/-- C4: when a song is already stored for the round, a further `selectSong`
from a machine owning the lobby returns the "Song already selected" failure
and the entire state — in particular every field of the stored song — is
unchanged. -/
theorem selectSongSecondCallFails (st : ServerState) (sid code : String)
    (lobby : Lobby) (si siNew : SongInfo)
    (h1 : lookupA st.machineConnections sid = some code)
    (h2 : lookupA st.lobbies code = some lobby)
    (h3 : lobby.songInfo = some si) :
    selectSong sid siNew st =
      (Except.ok (some (responseStatusFailure "selectSong" "Song already selected")), st) := by
  simp [selectSong, h1, h2, h3]

/-- Witness for C4: select WOWIE, then attempt the retitled song; the second
call fails and the state (hence the stored title) is untouched. -/
theorem selectSongSecondCallFails_witness :
    lookupA (run demoOpsSong).lobbies "AAAA" = some demoLobbySong ∧
    demoLobbySong.songInfo = some wowie ∧
    selectSong "m1" songUpdated (run demoOpsSong) =
      (Except.ok (some (responseStatusFailure "selectSong" "Song already selected")),
        run demoOpsSong) :=
  ⟨by decide, by decide,
    selectSongSecondCallFails (run demoOpsSong) "m1" "AAAA" demoLobbySong wowie songUpdated
      (by decide) (by decide) (by decide)⟩

/-- C7 counterexample.  The claim reads `canJoin` as "lobby exists and
(the provided password is empty or the stored one matches)"; the source
instead tests whether the STORED password is empty.  With a stored password
"secret" and an empty provided password the claim predicts `true` but the
function returns `false`. -/
theorem canJoinLobbyClaimFalse :
    canJoinLobbyClaim demoStateSecret "AAAA" "" = true ∧
    canJoinLobby demoStateSecret "AAAA" "" = false := by
  decide

/-- C7 amended: `canJoinLobby code password` is true exactly when a lobby
with that code exists and its STORED password is empty (public lobby) or
equals the provided password; existence failures and password mismatches are
indistinguishable in the single returned boolean. -/
theorem canJoinLobbyAmended (st : ServerState) (code password : String) :
    canJoinLobby st code password = true ↔
      ∃ lobby, lookupA st.lobbies code = some lobby ∧
        (lobby.password = "" ∨ lobby.password = password) := by
  cases h : lookupA st.lobbies code with
  | none => simp [canJoinLobby, h]
  | some lobby => simp [canJoinLobby, h]

/-- C8: a spectate request from a connection that currently owns a machine
slot anywhere is ignored: the state is unchanged and the reply is the
lobby's current spectator count. -/
theorem spectateIgnoredForMachine (st : ServerState) (sid code password : String)
    (spec : SpectatorU) (lobby : Lobby)
    (h1 : lookupA st.lobbies code = some lobby)
    (h2 : memA st.machineConnections sid = true) :
    spectateLobby sid spec code password st = (lobby.spectators.length, st) := by
  simp [spectateLobby, h1, h2]

/-- Witness for C8: a lone machine spectating its own fresh lobby receives
`spectators = 0` and changes nothing. -/
theorem spectateIgnoredForMachine_witness :
    lookupA (run demoOpsOne).lobbies "AAAA" = some demoLobbyOne ∧
    demoLobbyOne.spectators.length = 0 ∧
    spectateLobby "m1" { profileName := some "E.Norma" } "AAAA" "" (run demoOpsOne) =
      (demoLobbyOne.spectators.length, run demoOpsOne) :=
  ⟨by decide, by decide,
    spectateIgnoredForMachine (run demoOpsOne) "m1" "AAAA" ""
      { profileName := some "E.Norma" } demoLobbyOne (by decide) (by decide)⟩

/-- C9: joining the room index twice in a row equals joining once, and after
any sequence of join/leave operations from the empty index no room holds a
duplicated member. -/
theorem roomJoinIdempotentAndNodup :
    (∀ rooms sid code, roomJoin (roomJoin rooms sid code) sid code = roomJoin rooms sid code)
    ∧ (∀ ops code, ((lookupA (runRoomOps ops) code).getD []).Nodup) := by
  constructor
  · intro rooms sid code
    obtain ⟨s, hs, hmem⟩ := roomJoin_mem_self rooms sid code
    exact roomJoin_already _ sid code s hs hmem
  · intro ops code
    exact roomsNodup_runRoomOps ops code

/-! ## The updateMachine reset (claim C6) -/

/-- One entry with a given key of a duplicate-free association list is the
only one. -/
theorem mem_eq_of_nodupKeys {α : Type} {l : List (String × α)} (hnd : NodupKeys l)
    {p q : String × α} (hp : p ∈ l) (hq : q ∈ l) (h : p.1 = q.1) : p = q := by
  have e1 := lookupA_eq_some_of_mem hnd hp
  have e2 := lookupA_eq_some_of_mem hnd hq
  rw [h, e2] at e1
  obtain ⟨a, b⟩ := p
  obtain ⟨c, d⟩ := q
  simp only at h e1
  have : d = b := by injection e1
  simp [h, this]

/-- The claim's description of the stripped player: ephemeral score and
progress removed, identity fields (playerId, profileName, screenName, ready)
untouched. -/
def strippedFromPlayer (pNew pOld : Player) : Prop :=
  pNew.score = none ∧ pNew.progress = none ∧
  pNew.playerId = pOld.playerId ∧ pNew.profileName = pOld.profileName ∧
  pNew.screenName = pOld.screenName ∧ pNew.ready = pOld.ready

/-- Lifting of `strippedFromPlayer` to an optional player slot: present slots
stay present, absent stay absent. -/
def strippedFromSlot : Option Player → Option Player → Prop
  | none, none => True
  | some pNew, some pOld => strippedFromPlayer pNew pOld
  | _, _ => False

/-- Both slots of the machine are stripped versions of the merged ones. -/
def strippedFromMachine (mNew mOld : Machine) : Prop :=
  strippedFromSlot mNew.player1 mOld.player1 ∧ strippedFromSlot mNew.player2 mOld.player2

theorem strippedFromPlayer_pickRetained (p : Player) :
    strippedFromPlayer (pickRetained p) p := by
  simp [strippedFromPlayer, pickRetained]

theorem strippedFromMachine_resetMachine (m : Machine) :
    strippedFromMachine (resetMachine m) m := by
  refine ⟨?_, ?_⟩
  · cases hp : m.player1 with
    | none => simp [resetMachine, strippedFromSlot, hp]
    | some p =>
      simpa [resetMachine, strippedFromSlot, hp] using strippedFromPlayer_pickRetained p
  · cases hp : m.player2 with
    | none => simp [resetMachine, strippedFromSlot, hp]
    | some p =>
      simpa [resetMachine, strippedFromSlot, hp] using strippedFromPlayer_pickRetained p

/-- C6: an `updateMachine` call from a machine of the lobby merges the
payload; exactly on the transition from "not all players in song select" to
"all players in song select" the stored song is cleared and every player of
every machine is stripped to the retained identity fields, and on every other
call the merged players and the stored song survive as they are. -/
theorem updateMachineScreenTransition (st : ServerState) (sid code : String)
    (lobby : Lobby) (m : Machine) (u : MachineU)
    (h1 : lookupA st.machineConnections sid = some code)
    (h2 : lookupA st.lobbies code = some lobby)
    (h3 : lookupA lobby.machines sid = some m)
    (h4 : NodupKeys lobby.machines) :
    (updateMachine sid u st).1 = Except.ok none ∧
    ∀ lobby2, lookupA (updateMachine sid u st).2.lobbies code = some lobby2 →
      ((¬ inSongSelect lobby ∧ inSongSelect (mergedLobby lobby sid u)) →
        lobby2.songInfo = none ∧
        ∀ p ∈ lobby2.machines, ∀ q ∈ (mergedLobby lobby sid u).machines,
          p.1 = q.1 → strippedFromMachine p.2 q.2) ∧
      (¬ (¬ inSongSelect lobby ∧ inSongSelect (mergedLobby lobby sid u)) →
        lobby2.songInfo = lobby.songInfo ∧
        lobby2.machines = (mergedLobby lobby sid u).machines) := by
  have hcodes : (mergedLobby lobby sid u).code = lobby.code := by
    simp [mergedLobby, h3]
  have hsong : (mergedLobby lobby sid u).songInfo = lobby.songInfo := by
    simp [mergedLobby, h3]
  have hndm : NodupKeys (mergedLobby lobby sid u).machines := by
    simp only [mergedLobby, h3]
    exact nodupKeys_insertA sid _ h4
  by_cases htr : ¬ inSongSelect lobby ∧ inSongSelect (mergedLobby lobby sid u)
  · constructor
    · simp [updateMachine, h1, h2, htr.1, htr.2, mergedLobby, h3]
    · intro lobby2 hlb
      have hres : lookupA (updateMachine sid u st).2.lobbies code =
          some { mergedLobby lobby sid u with
                 songInfo := none
                 machines := (mergedLobby lobby sid u).machines.map
                   fun p => (p.1, resetMachine p.2) } := by
        simp only [updateMachine, h1, h2]
        rw [if_pos (by simpa using htr)]
        simp [broadcastLobbyState, lookupA_insertA_self]
      rw [hres] at hlb
      have hlb2 := Option.some.inj hlb
      subst hlb2
      refine ⟨fun _ => ⟨rfl, ?_⟩, fun hc => absurd htr hc⟩
      intro p hp q hq hpq
      rcases List.mem_map.mp hp with ⟨q0, hq0, hpe⟩
      have hq0q : q0 = q := by
        refine mem_eq_of_nodupKeys hndm hq0 hq ?_
        rw [← hpq, ← hpe]
      subst hq0q
      rw [← hpe]
      exact strippedFromMachine_resetMachine q0.2
  · constructor
    · simp [updateMachine, h1, h2]
    · intro lobby2 hlb
      have hres : lookupA (updateMachine sid u st).2.lobbies code =
          some (mergedLobby lobby sid u) := by
        simp only [updateMachine, h1, h2]
        rw [if_neg (by simpa using htr)]
        simp [broadcastLobbyState, lookupA_insertA_self]
      rw [hres] at hlb
      have hlb2 := Option.some.inj hlb
      subst hlb2
      exact ⟨fun hc => absurd hc htr, fun _ => ⟨hsong, rfl⟩⟩

/-- Operations putting the lone player into gameplay and selecting a song. -/
def demoOpsGameplay : List Op :=
  [Op.createLobby "m1" "AAAA" (machineUOf (some demoPlayerGameplay)) "",
   Op.selectSong "m1" wowie]

/-- The update payload moving the player back to the song select screen. -/
def demoUpdatePlayer : Player :=
  { playerId := none, profileName := none, screenName := some "ScreenSelectMusic",
    ready := none, score := none, progress := none }

/-- The machine stored after `demoOpsGameplay`. -/
def demoMachineGameplay : Machine :=
  { player1 := some demoPlayerGameplay, player2 := none,
    socketId := some "m1", ready := none }

/-- The lobby stored after `demoOpsGameplay`. -/
def demoLobbyGameplay : Lobby :=
  { code := "AAAA", password := ""
    machines := [("m1", demoMachineGameplay)]
    spectators := [], songInfo := some wowie }

/-- The machine after the merge back to song select and the reset. -/
def demoMachineAfterReset : Machine :=
  { player1 := some demoPlayerSelect, player2 := none,
    socketId := some "m1", ready := none }

/-- Witness for C6: the round trip of the spec — all players move from
gameplay back to song select, the stored song is cleared, score/progress are
stripped and the identity fields survive. -/
theorem updateMachineScreenTransition_witness :
    (updateMachine "m1" (machineUOf (some demoUpdatePlayer)) (run demoOpsGameplay)).1 =
      Except.ok none ∧
    lookupA (updateMachine "m1" (machineUOf (some demoUpdatePlayer))
        (run demoOpsGameplay)).2.lobbies "AAAA" =
      some { code := "AAAA", password := "", machines := [("m1", demoMachineAfterReset)],
             spectators := [], songInfo := none } ∧
    strippedFromMachine demoMachineAfterReset
      (mergeMachine demoMachineGameplay (machineUOf (some demoUpdatePlayer))) := by
  have h := updateMachineScreenTransition (run demoOpsGameplay) "m1" "AAAA"
    demoLobbyGameplay demoMachineGameplay (machineUOf (some demoUpdatePlayer))
    (by decide) (by decide) (by decide) (by decide)
  refine ⟨h.1, by decide, ?_⟩
  have h2 := (h.2 { code := "AAAA", password := "",
                    machines := [("m1", demoMachineAfterReset)],
                    spectators := [], songInfo := none } (by decide)).1 (by decide)
  exact h2.2 ("m1", demoMachineAfterReset) (by decide)
    ("m1", mergeMachine demoMachineGameplay (machineUOf (some demoUpdatePlayer)))
    (by decide) rfl

/-! ## Reachability invariants

`GoodCore` packages the consistency facts the coordinator maintains between
the lobby store and the two reverse connection indices; `GoodState` applies
it to a server state.  They are established for every state reachable from
`initState` and drive the claims about role exclusion and cascading
teardown. -/

theorem insertA_ne_nil {α : Type} (l : List (String × α)) (key : String) (v : α) :
    insertA l key v ≠ [] := by
  cases l with
  | nil => simp [insertA]
  | cons p rest =>
    obtain ⟨k, w⟩ := p
    by_cases hk : k = key
    · simp [insertA, hk]
    · simp [insertA, hk]

theorem keysA_map_snd {α β : Type} (l : List (String × α)) (f : α → β) :
    keysA (l.map fun p => (p.1, f p.2)) = keysA l := by
  induction l with
  | nil => rfl
  | cons p rest ih => simp [keysA]

theorem nodupKeys_map_snd {α β : Type} {l : List (String × α)} (f : α → β)
    (h : NodupKeys l) : NodupKeys (l.map fun p => (p.1, f p.2)) := by
  rw [NodupKeys, keysA_map_snd]
  exact h

/-- The spectator reverse index left behind by the spectator loop of
`disconnectMachine`. -/
def dropSC : List (String × Spectator) → List (String × String) → List (String × String)
  | [], sc => sc
  | (_, sp) :: rest, sc =>
    dropSC rest
      (match sp.socketId with
       | some ssid => eraseA sc ssid
       | none => sc)

theorem dropSpectators_lobbies (specs : List (String × Spectator)) (code : String)
    (st : ServerState) : (dropSpectators specs code st).lobbies = st.lobbies := by
  induction specs generalizing st with
  | nil => rfl
  | cons q rest ih =>
    obtain ⟨k, sp⟩ := q
    cases h : sp.socketId with
    | none => simpa [dropSpectators, h] using ih _
    | some ssid => simpa [dropSpectators, h] using ih _

theorem dropSpectators_mc (specs : List (String × Spectator)) (code : String)
    (st : ServerState) :
    (dropSpectators specs code st).machineConnections = st.machineConnections := by
  induction specs generalizing st with
  | nil => rfl
  | cons q rest ih =>
    obtain ⟨k, sp⟩ := q
    cases h : sp.socketId with
    | none => simpa [dropSpectators, h] using ih _
    | some ssid => simpa [dropSpectators, h] using ih _

theorem dropSpectators_sc (specs : List (String × Spectator)) (code : String)
    (st : ServerState) :
    (dropSpectators specs code st).spectatorConnections =
      dropSC specs st.spectatorConnections := by
  induction specs generalizing st with
  | nil => rfl
  | cons q rest ih =>
    obtain ⟨k, sp⟩ := q
    cases h : sp.socketId with
    | none => simpa [dropSpectators, dropSC, h] using ih _
    | some ssid => simpa [dropSpectators, dropSC, h] using ih _

theorem dropSpectators_effects_mono {specs : List (String × Spectator)} {code : String}
    {st : ServerState} {e : Effect} (h : e ∈ st.effects) :
    e ∈ (dropSpectators specs code st).effects := by
  induction specs generalizing st with
  | nil => exact h
  | cons q rest ih =>
    obtain ⟨k, sp⟩ := q
    cases hs : sp.socketId with
    | none =>
      rw [show dropSpectators ((k, sp) :: rest) code st = dropSpectators rest code st from by
        simp [dropSpectators, hs]]
      exact ih h
    | some ssid =>
      rw [show dropSpectators ((k, sp) :: rest) code st =
          dropSpectators rest code
            { st with
              rooms := roomLeave st.rooms ssid code
              effects := st.effects ++ [Effect.clientDisconnect ssid]
              spectatorConnections := eraseA st.spectatorConnections ssid } from by
        simp [dropSpectators, hs]]
      exact ih (by simp [h])

theorem dropSpectators_effect_mem {specs : List (String × Spectator)} {code : String}
    {st : ServerState} {q : String × Spectator} (hq : q ∈ specs) {s : String}
    (hs : (q.2 : Spectator).socketId = some s) :
    Effect.clientDisconnect s ∈ (dropSpectators specs code st).effects := by
  induction specs generalizing st with
  | nil => cases hq
  | cons q0 rest ih =>
    obtain ⟨k, sp⟩ := q0
    rcases List.mem_cons.mp hq with h1 | h1
    · subst h1
      simp only at hs
      rw [show dropSpectators ((k, sp) :: rest) code st =
          dropSpectators rest code
            { st with
              rooms := roomLeave st.rooms s code
              effects := st.effects ++ [Effect.clientDisconnect s]
              spectatorConnections := eraseA st.spectatorConnections s } from by
        simp [dropSpectators, hs]]
      exact dropSpectators_effects_mono (by simp)
    · cases hsp : sp.socketId with
      | none =>
        rw [show dropSpectators ((k, sp) :: rest) code st = dropSpectators rest code st from by
          simp [dropSpectators, hsp]]
        exact ih h1
      | some ssid =>
        rw [show dropSpectators ((k, sp) :: rest) code st =
            dropSpectators rest code
              { st with
                rooms := roomLeave st.rooms ssid code
                effects := st.effects ++ [Effect.clientDisconnect ssid]
                spectatorConnections := eraseA st.spectatorConnections ssid } from by
          simp [dropSpectators, hsp]]
        exact ih h1

theorem dropSC_none_mono {specs : List (String × Spectator)}
    {sc : List (String × String)} {x : String} (h : lookupA sc x = none) :
    lookupA (dropSC specs sc) x = none := by
  induction specs generalizing sc with
  | nil => exact h
  | cons q rest ih =>
    obtain ⟨k, sp⟩ := q
    cases hs : sp.socketId with
    | none => simpa [dropSC, hs] using ih h
    | some ssid =>
      rw [show dropSC ((k, sp) :: rest) sc = dropSC rest (eraseA sc ssid) from by
        simp [dropSC, hs]]
      exact ih (lookupA_eraseA_none sc ssid x h)

theorem dropSC_erased {specs : List (String × Spectator)} {sc : List (String × String)}
    {q : String × Spectator} (hq : q ∈ specs) {s : String}
    (hs : (q.2 : Spectator).socketId = some s) :
    lookupA (dropSC specs sc) s = none := by
  induction specs generalizing sc with
  | nil => cases hq
  | cons q0 rest ih =>
    obtain ⟨k, sp⟩ := q0
    rcases List.mem_cons.mp hq with h1 | h1
    · subst h1
      simp only at hs
      rw [show dropSC ((k, sp) :: rest) sc = dropSC rest (eraseA sc s) from by
        simp [dropSC, hs]]
      exact dropSC_none_mono (lookupA_eraseA_self sc s)
    · cases hsp : sp.socketId with
      | none =>
        rw [show dropSC ((k, sp) :: rest) sc = dropSC rest sc from by simp [dropSC, hsp]]
        exact ih h1
      | some ssid =>
        rw [show dropSC ((k, sp) :: rest) sc = dropSC rest (eraseA sc ssid) from by
          simp [dropSC, hsp]]
        exact ih h1

theorem dropSC_lookup_of_ne {specs : List (String × Spectator)}
    {sc : List (String × String)} {x : String}
    (h : ∀ q ∈ specs, ∀ s, (q.2 : Spectator).socketId = some s → s ≠ x) :
    lookupA (dropSC specs sc) x = lookupA sc x := by
  induction specs generalizing sc with
  | nil => rfl
  | cons q0 rest ih =>
    obtain ⟨k, sp⟩ := q0
    cases hsp : sp.socketId with
    | none =>
      rw [show dropSC ((k, sp) :: rest) sc = dropSC rest sc from by simp [dropSC, hsp]]
      exact ih (fun q hq s hs => h q (List.mem_cons_of_mem _ hq) s hs)
    | some ssid =>
      rw [show dropSC ((k, sp) :: rest) sc = dropSC rest (eraseA sc ssid) from by
        simp [dropSC, hsp]]
      rw [ih (fun q hq s hs => h q (List.mem_cons_of_mem _ hq) s hs)]
      exact lookupA_eraseA_ne sc ssid x
        (fun hc => h (k, sp) (List.mem_cons_self _ _) ssid hsp hc.symm)

theorem dropSC_subset {specs : List (String × Spectator)} {sc : List (String × String)}
    {p : String × String} (h : p ∈ dropSC specs sc) : p ∈ sc := by
  induction specs generalizing sc with
  | nil => exact h
  | cons q0 rest ih =>
    obtain ⟨k, sp⟩ := q0
    cases hsp : sp.socketId with
    | none =>
      rw [show dropSC ((k, sp) :: rest) sc = dropSC rest sc from by simp [dropSC, hsp]] at h
      exact ih h
    | some ssid =>
      rw [show dropSC ((k, sp) :: rest) sc = dropSC rest (eraseA sc ssid) from by
        simp [dropSC, hsp]] at h
      exact (mem_eraseA.mp (ih h)).1

theorem dropSC_nodup {specs : List (String × Spectator)} {sc : List (String × String)}
    (h : NodupKeys sc) : NodupKeys (dropSC specs sc) := by
  induction specs generalizing sc with
  | nil => exact h
  | cons q0 rest ih =>
    obtain ⟨k, sp⟩ := q0
    cases hsp : sp.socketId with
    | none =>
      rw [show dropSC ((k, sp) :: rest) sc = dropSC rest sc from by simp [dropSC, hsp]]
      exact ih h
    | some ssid =>
      rw [show dropSC ((k, sp) :: rest) sc = dropSC rest (eraseA sc ssid) from by
        simp [dropSC, hsp]]
      exact ih (nodupKeys_eraseA ssid h)

/-- The consistency pack tying the lobby store to the reverse indices:
role exclusion, duplicate-free tables, code/key agreement, forward ownership
(every member's reverse-index entry points at its lobby and its stored
socketId equals its key), the spectator index never dangles, and no lobby is
machineless. -/
structure GoodCore (lobbies : List (String × Lobby)) (mc sc : List (String × String)) :
    Prop where
  disj : ∀ p ∈ mc, lookupA sc p.1 = none
  ndM : NodupKeys mc
  ndS : NodupKeys sc
  ndL : NodupKeys lobbies
  codeEq : ∀ p ∈ lobbies, (p.2 : Lobby).code = p.1
  ndLM : ∀ p ∈ lobbies, NodupKeys (p.2 : Lobby).machines
  ndLS : ∀ p ∈ lobbies, NodupKeys (p.2 : Lobby).spectators
  mOwn : ∀ p ∈ lobbies, ∀ q ∈ (p.2 : Lobby).machines,
    lookupA mc q.1 = some p.1 ∧ (q.2 : Machine).socketId = some q.1
  sOwn : ∀ p ∈ lobbies, ∀ q ∈ (p.2 : Lobby).spectators,
    lookupA sc q.1 = some p.1 ∧ (q.2 : Spectator).socketId = some q.1
  sRev : ∀ p ∈ sc, ∃ l, lookupA lobbies p.2 = some l ∧
    (lookupA (l : Lobby).spectators p.1).isSome
  mNe : ∀ p ∈ lobbies, (p.2 : Lobby).machines ≠ []

/-- `GoodCore` instantiated at a server state. -/
def GoodState (st : ServerState) : Prop :=
  GoodCore st.lobbies st.machineConnections st.spectatorConnections

theorem goodState_init : GoodState initState := by
  refine ⟨?_, ?_, ?_, ?_, ?_, ?_, ?_, ?_, ?_, ?_, ?_⟩ <;>
    simp [initState, NodupKeys, keysA]

/-- Under `GoodCore`, a lobby looked up at a code carries that code. -/
theorem goodCore_code_of_lookup {lobbies : List (String × Lobby)}
    {mc sc : List (String × String)} (h : GoodCore lobbies mc sc)
    {code : String} {lobby : Lobby} (hl : lookupA lobbies code = some lobby) :
    lobby.code = code :=
  h.codeEq (code, lobby) (mem_of_lookupA hl)

/-- Under `GoodCore`, a machine member of a looked-up lobby owns a matching
index entry and stores its own key as socket id. -/
theorem goodCore_machine_of_lookup {lobbies : List (String × Lobby)}
    {mc sc : List (String × String)} (h : GoodCore lobbies mc sc)
    {code : String} {lobby : Lobby} (hl : lookupA lobbies code = some lobby)
    {sid : String} {m : Machine} (hm : lookupA lobby.machines sid = some m) :
    lookupA mc sid = some code ∧ m.socketId = some sid :=
  h.mOwn (code, lobby) (mem_of_lookupA hl) (sid, m) (mem_of_lookupA hm)

/-- Under `GoodCore`, a spectator member of a looked-up lobby owns a matching
index entry and stores its own key as socket id. -/
theorem goodCore_spectator_of_lookup {lobbies : List (String × Lobby)}
    {mc sc : List (String × String)} (h : GoodCore lobbies mc sc)
    {code : String} {lobby : Lobby} (hl : lookupA lobbies code = some lobby)
    {sid : String} {sp : Spectator} (hs : lookupA lobby.spectators sid = some sp) :
    lookupA sc sid = some code ∧ sp.socketId = some sid :=
  h.sOwn (code, lobby) (mem_of_lookupA hl) (sid, sp) (mem_of_lookupA hs)

/-- Two lobby entries with nodup keys agree when their keys do. -/
theorem goodCore_lookup_of_mem {lobbies : List (String × Lobby)}
    {mc sc : List (String × String)} (h : GoodCore lobbies mc sc)
    {p : String × Lobby} (hp : p ∈ lobbies) : lookupA lobbies p.1 = some p.2 :=
  lookupA_eq_some_of_mem h.ndL hp

/-- Core preservation: the success path of `disconnectSpectator`. -/
theorem goodCore_disconnectSpectator {lobbies : List (String × Lobby)}
    {mc sc : List (String × String)} (h : GoodCore lobbies mc sc)
    {sid code : String} {lobby : Lobby}
    (hsc : lookupA sc sid = some code)
    (hl : lookupA lobbies code = some lobby) :
    GoodCore (insertA lobbies code { lobby with spectators := eraseA lobby.spectators sid })
      mc (eraseA sc sid) := by
  have hmemL : (code, lobby) ∈ lobbies := mem_of_lookupA hl
  refine ⟨?_, h.ndM, nodupKeys_eraseA sid h.ndS, nodupKeys_insertA code _ h.ndL,
    ?_, ?_, ?_, ?_, ?_, ?_, ?_⟩
  · intro p hp
    exact lookupA_eraseA_none sc sid p.1 (h.disj p hp)
  · intro p hp
    rcases mem_insertA_nodup h.ndL hp with h1 | ⟨h1, _⟩
    · rw [h1]
      have hcode : lobby.code = code := h.codeEq (code, lobby) hmemL
      exact hcode
    · exact h.codeEq p h1
  · intro p hp
    rcases mem_insertA_nodup h.ndL hp with h1 | ⟨h1, _⟩
    · rw [h1]
      exact h.ndLM (code, lobby) hmemL
    · exact h.ndLM p h1
  · intro p hp
    rcases mem_insertA_nodup h.ndL hp with h1 | ⟨h1, _⟩
    · rw [h1]
      exact nodupKeys_eraseA sid (h.ndLS (code, lobby) hmemL)
    · exact h.ndLS p h1
  · intro p hp
    rcases mem_insertA_nodup h.ndL hp with h1 | ⟨h1, _⟩
    · rw [h1]
      intro q hq
      exact h.mOwn (code, lobby) hmemL q hq
    · exact h.mOwn p h1
  · intro p hp
    rcases mem_insertA_nodup h.ndL hp with h1 | ⟨h1, hne⟩
    · rw [h1]
      intro q hq
      obtain ⟨hq1, hq2⟩ := mem_eraseA.mp hq
      obtain ⟨ho1, ho2⟩ := h.sOwn (code, lobby) hmemL q hq1
      exact ⟨by rw [lookupA_eraseA_ne sc sid q.1 hq2]; exact ho1, ho2⟩
    · intro q hq
      obtain ⟨ho1, ho2⟩ := h.sOwn p h1 q hq
      have hq2 : q.1 ≠ sid := by
        intro hc
        rw [hc, hsc] at ho1
        exact hne (by injection ho1 with h2; rw [h2])
      exact ⟨by rw [lookupA_eraseA_ne sc sid q.1 hq2]; exact ho1, ho2⟩
  · intro p hp
    obtain ⟨hp1, hp2⟩ := mem_eraseA.mp hp
    obtain ⟨l, hl2, hmem2⟩ := h.sRev p hp1
    by_cases hc : p.2 = code
    · subst hc
      have : l = lobby := by rw [hl2] at hl; injection hl
      subst this
      refine ⟨{ l with spectators := eraseA l.spectators sid }, ?_, ?_⟩
      · exact lookupA_insertA_self lobbies p.2 _
      · rw [lookupA_eraseA_ne l.spectators sid p.1 hp2]
        exact hmem2
    · refine ⟨l, ?_, hmem2⟩
      rw [lookupA_insertA_ne lobbies code p.2 _ hc]
      exact hl2
  · intro p hp
    rcases mem_insertA_nodup h.ndL hp with h1 | ⟨h1, _⟩
    · rw [h1]
      exact h.mNe (code, lobby) hmemL
    · exact h.mNe p h1

/-- State-level preservation for `disconnectSpectator`. -/
theorem goodState_disconnectSpectator {st : ServerState} (h : GoodState st)
    (sid : String) : GoodState (disconnectSpectator sid st).2 := by
  cases hsc : lookupA st.spectatorConnections sid with
  | none => simpa [disconnectSpectator, hsc] using h
  | some code =>
    cases hl : lookupA st.lobbies code with
    | none => simpa [disconnectSpectator, hsc, hl] using h
    | some lobby =>
      cases hsp : lookupA lobby.spectators sid with
      | none => simpa [disconnectSpectator, hsc, hl, hsp] using h
      | some sp =>
        have hg := goodCore_disconnectSpectator h hsc hl
        cases hsock : sp.socketId with
        | none =>
          simpa [GoodState, disconnectSpectator, hsc, hl, hsp, hsock] using hg
        | some ssid =>
          simpa [GoodState, disconnectSpectator, hsc, hl, hsp, hsock] using hg

theorem getPlayerCount_of_nil {lobby : Lobby} (h : lobby.machines = []) :
    getPlayerCountForLobby lobby = 0 := by
  simp [getPlayerCountForLobby, h]

/-- A machine member of a lobby other than the disconnected one keeps a key
different from the disconnected socket. -/
theorem machine_key_ne {lobbies : List (String × Lobby)} {mc sc : List (String × String)}
    (h : GoodCore lobbies mc sc) {sid code : String}
    (hmc : lookupA mc sid = some code) {p : String × Lobby} (hp : p ∈ lobbies)
    (hne : p.1 ≠ code) {q : String × Machine} (hq : q ∈ (p.2 : Lobby).machines) :
    q.1 ≠ sid := by
  intro hc
  have ho := (h.mOwn p hp q hq).1
  rw [hc, hmc] at ho
  exact hne (by injection ho with h2; rw [← h2])

/-- Core preservation: removing a machine while players remain (the broadcast
branch of `disconnectMachine`). -/
theorem goodCore_removeMachine {lobbies : List (String × Lobby)}
    {mc sc : List (String × String)} (h : GoodCore lobbies mc sc)
    {sid code : String} {lobby : Lobby}
    (hmc : lookupA mc sid = some code)
    (hl : lookupA lobbies code = some lobby)
    (hnz : getPlayerCountForLobby { lobby with machines := eraseA lobby.machines sid } ≠ 0) :
    GoodCore (insertA lobbies code { lobby with machines := eraseA lobby.machines sid })
      (eraseA (eraseA mc sid) sid) sc := by
  have hmemL : (code, lobby) ∈ lobbies := mem_of_lookupA hl
  refine ⟨?_, nodupKeys_eraseA sid (nodupKeys_eraseA sid h.ndM),
    h.ndS, nodupKeys_insertA code _ h.ndL, ?_, ?_, ?_, ?_, ?_, ?_, ?_⟩
  · intro p hp
    exact h.disj p (mem_eraseA.mp (mem_eraseA.mp hp).1).1
  · intro p hp
    rcases mem_insertA_nodup h.ndL hp with h1 | ⟨h1, _⟩
    · rw [h1]
      have hcode : lobby.code = code := h.codeEq (code, lobby) hmemL
      exact hcode
    · exact h.codeEq p h1
  · intro p hp
    rcases mem_insertA_nodup h.ndL hp with h1 | ⟨h1, _⟩
    · rw [h1]
      exact nodupKeys_eraseA sid (h.ndLM (code, lobby) hmemL)
    · exact h.ndLM p h1
  · intro p hp
    rcases mem_insertA_nodup h.ndL hp with h1 | ⟨h1, _⟩
    · rw [h1]
      exact h.ndLS (code, lobby) hmemL
    · exact h.ndLS p h1
  · intro p hp
    rcases mem_insertA_nodup h.ndL hp with h1 | ⟨h1, hne⟩
    · rw [h1]
      intro q hq
      obtain ⟨hq1, hq2⟩ := mem_eraseA.mp hq
      obtain ⟨ho1, ho2⟩ := h.mOwn (code, lobby) hmemL q hq1
      refine ⟨?_, ho2⟩
      rw [lookupA_eraseA_ne _ sid q.1 hq2, lookupA_eraseA_ne _ sid q.1 hq2]
      exact ho1
    · intro q hq
      obtain ⟨ho1, ho2⟩ := h.mOwn p h1 q hq
      have hq2 : q.1 ≠ sid := machine_key_ne h hmc h1 hne hq
      refine ⟨?_, ho2⟩
      rw [lookupA_eraseA_ne _ sid q.1 hq2, lookupA_eraseA_ne _ sid q.1 hq2]
      exact ho1
  · intro p hp
    rcases mem_insertA_nodup h.ndL hp with h1 | ⟨h1, _⟩
    · rw [h1]
      intro q hq
      exact h.sOwn (code, lobby) hmemL q hq
    · exact h.sOwn p h1
  · intro p hp
    obtain ⟨l, hl2, hmem2⟩ := h.sRev p hp
    by_cases hc : p.2 = code
    · subst hc
      have : l = lobby := by rw [hl2] at hl; injection hl
      subst this
      refine ⟨{ l with machines := eraseA l.machines sid }, ?_, hmem2⟩
      exact lookupA_insertA_self lobbies p.2 _
    · refine ⟨l, ?_, hmem2⟩
      rw [lookupA_insertA_ne lobbies code p.2 _ hc]
      exact hl2
  · intro p hp
    rcases mem_insertA_nodup h.ndL hp with h1 | ⟨h1, _⟩
    · rw [h1]
      intro hcon
      exact hnz (getPlayerCount_of_nil hcon)
    · exact h.mNe p h1

/-- Core preservation: the teardown branch of `disconnectMachine` (zero
players remain): the lobby is deleted and every one of its spectators loses
its reverse-index entry. -/
theorem goodCore_teardown {lobbies : List (String × Lobby)}
    {mc sc : List (String × String)} (h : GoodCore lobbies mc sc)
    {sid code : String} {lobby : Lobby}
    (hmc : lookupA mc sid = some code)
    (hl : lookupA lobbies code = some lobby) :
    GoodCore
      (eraseA (insertA lobbies code { lobby with machines := eraseA lobby.machines sid }) code)
      (eraseA (eraseA mc sid) sid)
      (dropSC lobby.spectators sc) := by
  have hmemL : (code, lobby) ∈ lobbies := mem_of_lookupA hl
  have hspecSock : ∀ q ∈ lobby.spectators, (q.2 : Spectator).socketId = some q.1 :=
    fun q hq => (h.sOwn (code, lobby) hmemL q hq).2
  have hspecIdx : ∀ q ∈ lobby.spectators, lookupA sc q.1 = some code :=
    fun q hq => (h.sOwn (code, lobby) hmemL q hq).1
  have hmemElim : ∀ p : String × Lobby,
      p ∈ eraseA (insertA lobbies code
        { lobby with machines := eraseA lobby.machines sid }) code →
      p ∈ lobbies ∧ p.1 ≠ code := by
    intro p hp
    obtain ⟨hp1, hp2⟩ := mem_eraseA.mp hp
    rcases mem_insertA hp1 with h1 | h1
    · exact absurd (by rw [h1]) hp2
    · exact ⟨h1, hp2⟩
  refine ⟨?_, nodupKeys_eraseA sid (nodupKeys_eraseA sid h.ndM),
    dropSC_nodup h.ndS,
    nodupKeys_eraseA code (nodupKeys_insertA code _ h.ndL), ?_, ?_, ?_, ?_, ?_, ?_, ?_⟩
  · intro p hp
    exact dropSC_none_mono (h.disj p (mem_eraseA.mp (mem_eraseA.mp hp).1).1)
  · intro p hp
    exact h.codeEq p (hmemElim p hp).1
  · intro p hp
    exact h.ndLM p (hmemElim p hp).1
  · intro p hp
    exact h.ndLS p (hmemElim p hp).1
  · intro p hp
    obtain ⟨h1, hne⟩ := hmemElim p hp
    intro q hq
    obtain ⟨ho1, ho2⟩ := h.mOwn p h1 q hq
    have hq2 : q.1 ≠ sid := machine_key_ne h hmc h1 hne hq
    refine ⟨?_, ho2⟩
    rw [lookupA_eraseA_ne _ sid q.1 hq2, lookupA_eraseA_ne _ sid q.1 hq2]
    exact ho1
  · intro p hp
    obtain ⟨h1, hne⟩ := hmemElim p hp
    intro q hq
    obtain ⟨ho1, ho2⟩ := h.sOwn p h1 q hq
    refine ⟨?_, ho2⟩
    rw [dropSC_lookup_of_ne]
    · exact ho1
    · intro q' hq' s hs hsx
      have hkey : s = q'.1 := by
        have := hspecSock q' hq'
        rw [hs] at this
        injection this
      rw [hkey] at hsx
      have hidx := hspecIdx q' hq'
      rw [hsx, ho1] at hidx
      exact hne (Option.some.inj hidx)
  · intro p hp
    have hp1 : p ∈ sc := dropSC_subset hp
    obtain ⟨l, hl2, hmem2⟩ := h.sRev p hp1
    by_cases hc : p.2 = code
    · exfalso
      subst hc
      have hll : l = lobby := by rw [hl2] at hl; injection hl
      subst hll
      obtain ⟨sp, hsp⟩ := Option.isSome_iff_exists.mp hmem2
      have hmemq : (p.1, sp) ∈ l.spectators := mem_of_lookupA hsp
      have hnone : lookupA (dropSC l.spectators sc) p.1 = none :=
        dropSC_erased hmemq (hspecSock (p.1, sp) hmemq)
      have hsome := lookupA_isSome_of_mem hp
      rw [hnone] at hsome
      simp at hsome
    · refine ⟨l, ?_, hmem2⟩
      rw [lookupA_eraseA_ne _ code p.2 hc, lookupA_insertA_ne lobbies code p.2 _ hc]
      exact hl2
  · intro p hp
    exact h.mNe p (hmemElim p hp).1

/-- State-level preservation for `disconnectMachine`. -/
theorem goodState_disconnectMachine {st : ServerState} (h : GoodState st)
    (sid : String) : GoodState (disconnectMachine sid st).2 := by
  cases hmc : lookupA st.machineConnections sid with
  | none => simpa [disconnectMachine, hmc] using h
  | some code =>
    cases hl : lookupA st.lobbies code with
    | none => simpa [disconnectMachine, hmc, hl] using h
    | some lobby =>
      cases hm : lookupA lobby.machines sid with
      | none => simpa [disconnectMachine, hmc, hl, hm] using h
      | some m =>
        have hsock : m.socketId = some sid := (goodCore_machine_of_lookup h hl hm).2
        by_cases hz :
            getPlayerCountForLobby { lobby with machines := eraseA lobby.machines sid } = 0
        · have hcore := goodCore_teardown h hmc hl
          simpa [GoodState, disconnectMachine, hmc, hl, hm, hsock, hz,
            dropSpectators_lobbies, dropSpectators_mc, dropSpectators_sc] using hcore
        · have hcore := goodCore_removeMachine h hmc hl hz
          simpa [GoodState, disconnectMachine, hmc, hl, hm, hsock, hz,
            broadcastLobbyState] using hcore

/-- Result of the teardown branch of `disconnectMachine`: the lobby is gone,
every spectator of it has been force-disconnected and lost its reverse-index
entry. -/
theorem disconnectMachine_teardown_result {st : ServerState} (h : GoodState st)
    {sid code : String} {lobby : Lobby} {m : Machine}
    (hmc : lookupA st.machineConnections sid = some code)
    (hl : lookupA st.lobbies code = some lobby)
    (hm : lookupA lobby.machines sid = some m)
    (hz : getPlayerCountForLobby { lobby with machines := eraseA lobby.machines sid } = 0) :
    (disconnectMachine sid st).1 = true ∧
    lookupA (disconnectMachine sid st).2.lobbies code = none ∧
    ∀ q ∈ lobby.spectators,
      Effect.clientDisconnect q.1 ∈ (disconnectMachine sid st).2.effects ∧
      lookupA (disconnectMachine sid st).2.spectatorConnections q.1 = none := by
  have hsock : m.socketId = some sid := (goodCore_machine_of_lookup h hl hm).2
  have hspecSock : ∀ q ∈ lobby.spectators, (q.2 : Spectator).socketId = some q.1 :=
    fun q hq => (h.sOwn (code, lobby) (mem_of_lookupA hl) q hq).2
  have hres : (disconnectMachine sid st).2 =
      { dropSpectators lobby.spectators code
          { st with
            machineConnections := eraseA (eraseA st.machineConnections sid) sid
            rooms := roomLeave st.rooms sid code
            lobbies := insertA st.lobbies code
              { lobby with machines := eraseA lobby.machines sid } } with
        lobbies := eraseA
          (dropSpectators lobby.spectators code
            { st with
              machineConnections := eraseA (eraseA st.machineConnections sid) sid
              rooms := roomLeave st.rooms sid code
              lobbies := insertA st.lobbies code
                { lobby with machines := eraseA lobby.machines sid } }).lobbies code } := by
    simp [disconnectMachine, hmc, hl, hm, hsock, hz]
  refine ⟨by simp [disconnectMachine, hmc, hl, hm, hsock, hz], ?_, ?_⟩
  · rw [hres]
    exact lookupA_eraseA_self _ code
  · intro q hq
    constructor
    · rw [hres]
      exact dropSpectators_effect_mem hq (hspecSock q hq)
    · rw [hres]
      have hsc := dropSpectators_sc lobby.spectators code
        { st with
          machineConnections := eraseA (eraseA st.machineConnections sid) sid
          rooms := roomLeave st.rooms sid code
          lobbies := insertA st.lobbies code
            { lobby with machines := eraseA lobby.machines sid } }
      simp only [hsc]
      exact dropSC_erased hq (hspecSock q hq)

/-- Result of the broadcast branch of `disconnectMachine`: the lobby survives
with the machine removed and the remaining room gets a lobbyState
broadcast. -/
theorem disconnectMachine_keep_result {st : ServerState} (h : GoodState st)
    {sid code : String} {lobby : Lobby} {m : Machine}
    (hmc : lookupA st.machineConnections sid = some code)
    (hl : lookupA st.lobbies code = some lobby)
    (hm : lookupA lobby.machines sid = some m)
    (hnz : getPlayerCountForLobby { lobby with machines := eraseA lobby.machines sid } ≠ 0) :
    (disconnectMachine sid st).1 = true ∧
    (disconnectMachine sid st).2.lobbies =
      insertA st.lobbies code { lobby with machines := eraseA lobby.machines sid } ∧
    (disconnectMachine sid st).2.effects = st.effects ++ [Effect.sendLobby code] ∧
    (disconnectMachine sid st).2.spectatorConnections = st.spectatorConnections := by
  have hsock : m.socketId = some sid := (goodCore_machine_of_lookup h hl hm).2
  refine ⟨?_, ?_, ?_, ?_⟩ <;>
    simp [disconnectMachine, hmc, hl, hm, hsock, hnz, broadcastLobbyState]

theorem disconnectSpectator_mc {st : ServerState} (sid : String) :
    (disconnectSpectator sid st).2.machineConnections = st.machineConnections := by
  cases hsc : lookupA st.spectatorConnections sid with
  | none => simp [disconnectSpectator, hsc]
  | some code =>
    cases hl : lookupA st.lobbies code with
    | none => simp [disconnectSpectator, hsc, hl]
    | some lobby =>
      cases hsp : lookupA lobby.spectators sid with
      | none => simp [disconnectSpectator, hsc, hl, hsp]
      | some sp =>
        cases hsock : sp.socketId with
        | none => simp [disconnectSpectator, hsc, hl, hsp, hsock]
        | some ssid => simp [disconnectSpectator, hsc, hl, hsp, hsock]

theorem disconnectSpectator_lobby_isSome {st : ServerState} (sid : String) (c : String) :
    (lookupA (disconnectSpectator sid st).2.lobbies c).isSome =
      (lookupA st.lobbies c).isSome := by
  cases hsc : lookupA st.spectatorConnections sid with
  | none => simp [disconnectSpectator, hsc]
  | some code =>
    cases hl : lookupA st.lobbies code with
    | none => simp [disconnectSpectator, hsc, hl]
    | some lobby =>
      cases hsp : lookupA lobby.spectators sid with
      | none => simp [disconnectSpectator, hsc, hl, hsp]
      | some sp =>
        have hlb : ∀ st1 : ServerState, st1.lobbies = st.lobbies →
            (lookupA (insertA st1.lobbies code
              { lobby with spectators := eraseA lobby.spectators sid }) c).isSome =
            (lookupA st.lobbies c).isSome := by
          intro st1 he
          rw [he]
          by_cases hc : c = code
          · subst hc
            simp [lookupA_insertA_self, hl]
          · rw [lookupA_insertA_ne st.lobbies code c _ hc]
        cases hsock : sp.socketId with
        | none =>
          simpa [disconnectSpectator, hsc, hl, hsp, hsock] using hlb st rfl
        | some ssid =>
          simpa [disconnectSpectator, hsc, hl, hsp, hsock] using
            hlb { st with rooms := roomLeave st.rooms ssid code } rfl

theorem goodState_preemptSpectator {st : ServerState} (h : GoodState st) (sid : String) :
    GoodState (preemptSpectator sid st) := by
  unfold preemptSpectator
  by_cases hm : memA st.spectatorConnections sid
  · rw [if_pos hm]
    exact goodState_disconnectSpectator h sid
  · rw [if_neg hm]
    exact h

theorem goodState_preemptMachine {st : ServerState} (h : GoodState st) (sid : String) :
    GoodState (preemptMachine sid st) := by
  unfold preemptMachine
  by_cases hm : memA st.machineConnections sid
  · rw [if_pos hm]
    exact goodState_disconnectMachine h sid
  · rw [if_neg hm]
    exact h

theorem preemptSpectator_mc {st : ServerState} (sid : String) :
    (preemptSpectator sid st).machineConnections = st.machineConnections := by
  unfold preemptSpectator
  by_cases hm : memA st.spectatorConnections sid
  · rw [if_pos hm]
    exact disconnectSpectator_mc sid
  · rw [if_neg hm]

theorem preemptSpectator_sc_self {st : ServerState} (h : GoodState st) (sid : String) :
    lookupA (preemptSpectator sid st).spectatorConnections sid = none := by
  cases hsc : lookupA st.spectatorConnections sid with
  | none =>
    have hm : ¬ memA st.spectatorConnections sid = true := by simp [memA, hsc]
    unfold preemptSpectator
    rw [if_neg hm]
    exact hsc
  | some code =>
    have hm : memA st.spectatorConnections sid = true := by simp [memA, hsc]
    obtain ⟨l, hl, hsp0⟩ := h.sRev (sid, code) (mem_of_lookupA hsc)
    obtain ⟨sp, hsp⟩ := Option.isSome_iff_exists.mp hsp0
    unfold preemptSpectator
    rw [if_pos hm]
    cases hsock : sp.socketId with
    | none =>
      simp [disconnectSpectator, hsc, hl, hsp, hsock, lookupA_eraseA_self]
    | some ssid =>
      simp [disconnectSpectator, hsc, hl, hsp, hsock, lookupA_eraseA_self]

theorem preemptSpectator_not_smember {st : ServerState} (h : GoodState st) (sid : String) :
    ∀ c l, lookupA (preemptSpectator sid st).lobbies c = some l →
      lookupA l.spectators sid = none := by
  intro c l hc
  cases hx : lookupA l.spectators sid with
  | none => rfl
  | some sp =>
    exfalso
    have hg := goodState_preemptSpectator h sid
    have ho := (goodCore_spectator_of_lookup hg hc hx).1
    rw [preemptSpectator_sc_self h sid] at ho
    cases ho

theorem disconnectMachine_sc_none {st : ServerState} (h : GoodState st) (sid : String)
    {x : String} (hx : lookupA st.spectatorConnections x = none) :
    lookupA (disconnectMachine sid st).2.spectatorConnections x = none := by
  cases hmc : lookupA st.machineConnections sid with
  | none => simpa [disconnectMachine, hmc] using hx
  | some code =>
    cases hl : lookupA st.lobbies code with
    | none => simpa [disconnectMachine, hmc, hl] using hx
    | some lobby =>
      cases hm : lookupA lobby.machines sid with
      | none => simpa [disconnectMachine, hmc, hl, hm] using hx
      | some m =>
        have hsock : m.socketId = some sid := (goodCore_machine_of_lookup h hl hm).2
        by_cases hz :
            getPlayerCountForLobby { lobby with machines := eraseA lobby.machines sid } = 0
        · have : lookupA (dropSC lobby.spectators st.spectatorConnections) x = none :=
            dropSC_none_mono hx
          simpa [disconnectMachine, hmc, hl, hm, hsock, hz, dropSpectators_sc] using this
        · simpa [disconnectMachine, hmc, hl, hm, hsock, hz, broadcastLobbyState] using hx

theorem preemptMachine_sc_none {st : ServerState} (h : GoodState st) (sid : String)
    {x : String} (hx : lookupA st.spectatorConnections x = none) :
    lookupA (preemptMachine sid st).spectatorConnections x = none := by
  unfold preemptMachine
  by_cases hm : memA st.machineConnections sid
  · rw [if_pos hm]
    exact disconnectMachine_sc_none h sid hx
  · rw [if_neg hm]
    exact hx

theorem disconnectMachine_teardown_lobbies {st : ServerState}
    {sid code : String} {lobby : Lobby} {m : Machine}
    (hmc : lookupA st.machineConnections sid = some code)
    (hl : lookupA st.lobbies code = some lobby)
    (hm : lookupA lobby.machines sid = some m)
    (hsock : m.socketId = some sid)
    (hz : getPlayerCountForLobby { lobby with machines := eraseA lobby.machines sid } = 0) :
    (disconnectMachine sid st).2.lobbies =
      eraseA (insertA st.lobbies code
        { lobby with machines := eraseA lobby.machines sid }) code := by
  simp [disconnectMachine, hmc, hl, hm, hsock, hz, dropSpectators_lobbies]

/-- After the machine pre-emption step, the socket owns no machine entry in
any lobby. -/
theorem preemptMachine_not_mmember {st : ServerState} (h : GoodState st) (sid : String) :
    ∀ c l, lookupA (preemptMachine sid st).lobbies c = some l →
      lookupA l.machines sid = none := by
  intro c l hc
  cases hx : lookupA l.machines sid with
  | none => rfl
  | some mm =>
    exfalso
    by_cases hmem : memA st.machineConnections sid
    · obtain ⟨code, hmc⟩ : ∃ code, lookupA st.machineConnections sid = some code := by
        cases hy : lookupA st.machineConnections sid
        · rw [memA, hy] at hmem
          simp at hmem
        · exact ⟨_, rfl⟩
      have hpre : preemptMachine sid st = (disconnectMachine sid st).2 := by
        unfold preemptMachine
        rw [if_pos hmem]
      rw [hpre] at hc
      cases hl : lookupA st.lobbies code with
      | none =>
        rw [show (disconnectMachine sid st).2 = st from by
          simp [disconnectMachine, hmc, hl]] at hc
        have ho := (goodCore_machine_of_lookup h hc hx).1
        rw [hmc] at ho
        have hcode : code = c := by injection ho
        subst hcode
        rw [hc] at hl
        cases hl
      | some lobby =>
        cases hm : lookupA lobby.machines sid with
        | none =>
          rw [show (disconnectMachine sid st).2 = st from by
            simp [disconnectMachine, hmc, hl, hm]] at hc
          have ho := (goodCore_machine_of_lookup h hc hx).1
          rw [hmc] at ho
          have hcode : code = c := by injection ho
          subst hcode
          rw [hc] at hl
          have hle : l = lobby := by injection hl
          subst hle
          rw [hx] at hm
          cases hm
        | some m =>
          have hsock : m.socketId = some sid := (goodCore_machine_of_lookup h hl hm).2
          by_cases hz :
              getPlayerCountForLobby { lobby with machines := eraseA lobby.machines sid } = 0
          · rw [disconnectMachine_teardown_lobbies hmc hl hm hsock hz] at hc
            by_cases hcc : c = code
            · subst hcc
              rw [lookupA_eraseA_self] at hc
              cases hc
            · rw [lookupA_eraseA_ne _ code c hcc,
                lookupA_insertA_ne st.lobbies code c _ hcc] at hc
              have ho := (goodCore_machine_of_lookup h hc hx).1
              rw [hmc] at ho
              exact hcc (by injection ho with h2; rw [← h2])
          · have hlb := (disconnectMachine_keep_result h hmc hl hm hz).2.1
            rw [hlb] at hc
            by_cases hcc : c = code
            · subst hcc
              rw [lookupA_insertA_self] at hc
              have : { lobby with machines := eraseA lobby.machines sid } = l := by
                injection hc
              rw [← this] at hx
              have : lookupA (eraseA lobby.machines sid) sid = some mm := hx
              rw [lookupA_eraseA_self] at this
              cases this
            · rw [lookupA_insertA_ne st.lobbies code c _ hcc] at hc
              have ho := (goodCore_machine_of_lookup h hc hx).1
              rw [hmc] at ho
              exact hcc (by injection ho with h2; rw [← h2])
    · have hpre : preemptMachine sid st = st := by
        unfold preemptMachine
        rw [if_neg hmem]
      rw [hpre] at hc
      have ho := (goodCore_machine_of_lookup h hc hx).1
      rw [memA, ho] at hmem
      simp at hmem

/-- Core preservation: inserting a machine for a fresh-role socket into an
existing lobby (the join path). -/
theorem goodCore_insertMachine {lobbies : List (String × Lobby)}
    {mc sc : List (String × String)} (h : GoodCore lobbies mc sc)
    {sid code : String} {lobby : Lobby} {newm : Machine}
    (hl : lookupA lobbies code = some lobby)
    (hscn : lookupA sc sid = none)
    (hnm : ∀ c l2, lookupA lobbies c = some l2 → lookupA (l2 : Lobby).machines sid = none)
    (hnewm : newm.socketId = some sid) :
    GoodCore (insertA lobbies code { lobby with machines := insertA lobby.machines sid newm })
      (insertA mc sid code) sc := by
  have hmemL : (code, lobby) ∈ lobbies := mem_of_lookupA hl
  have hLm : lookupA lobby.machines sid = none := hnm code lobby hl
  refine ⟨?_, nodupKeys_insertA sid code h.ndM, h.ndS, nodupKeys_insertA code _ h.ndL,
    ?_, ?_, ?_, ?_, ?_, ?_, ?_⟩
  · intro p hp
    rcases mem_insertA hp with h1 | h1
    · rw [h1]
      exact hscn
    · exact h.disj p h1
  · intro p hp
    rcases mem_insertA_nodup h.ndL hp with h1 | ⟨h1, _⟩
    · rw [h1]
      have hcode : lobby.code = code := h.codeEq (code, lobby) hmemL
      exact hcode
    · exact h.codeEq p h1
  · intro p hp
    rcases mem_insertA_nodup h.ndL hp with h1 | ⟨h1, _⟩
    · rw [h1]
      exact nodupKeys_insertA sid newm (h.ndLM (code, lobby) hmemL)
    · exact h.ndLM p h1
  · intro p hp
    rcases mem_insertA_nodup h.ndL hp with h1 | ⟨h1, _⟩
    · rw [h1]
      exact h.ndLS (code, lobby) hmemL
    · exact h.ndLS p h1
  · intro p hp
    rcases mem_insertA_nodup h.ndL hp with h1 | ⟨h1, hne⟩
    · rw [h1]
      intro q hq
      rcases mem_insertA hq with h2 | h2
      · rw [h2]
        exact ⟨lookupA_insertA_self mc sid code, hnewm⟩
      · have hq1 : q.1 ≠ sid := by
          intro hcq
          have := lookupA_isSome_of_mem h2
          rw [hcq, hLm] at this
          simp at this
        obtain ⟨ho1, ho2⟩ := h.mOwn (code, lobby) hmemL q h2
        exact ⟨by rw [lookupA_insertA_ne mc sid q.1 code hq1]; exact ho1, ho2⟩
    · intro q hq
      have hq1 : q.1 ≠ sid := by
        intro hcq
        have hx := hnm p.1 p.2 (goodCore_lookup_of_mem h h1)
        have := lookupA_isSome_of_mem hq
        rw [hcq, hx] at this
        simp at this
      obtain ⟨ho1, ho2⟩ := h.mOwn p h1 q hq
      exact ⟨by rw [lookupA_insertA_ne mc sid q.1 code hq1]; exact ho1, ho2⟩
  · intro p hp
    rcases mem_insertA_nodup h.ndL hp with h1 | ⟨h1, _⟩
    · rw [h1]
      intro q hq
      exact h.sOwn (code, lobby) hmemL q hq
    · exact h.sOwn p h1
  · intro p hp
    obtain ⟨l, hl2, hmem2⟩ := h.sRev p hp
    by_cases hcp : p.2 = code
    · subst hcp
      have : l = lobby := by rw [hl2] at hl; injection hl
      subst this
      exact ⟨{ l with machines := insertA l.machines sid newm },
        lookupA_insertA_self lobbies p.2 _, hmem2⟩
    · exact ⟨l, by rw [lookupA_insertA_ne lobbies code p.2 _ hcp]; exact hl2, hmem2⟩
  · intro p hp
    rcases mem_insertA_nodup h.ndL hp with h1 | ⟨h1, _⟩
    · rw [h1]
      exact insertA_ne_nil _ sid newm
    · exact h.mNe p h1

/-- Core preservation: creating a fresh lobby whose sole machine is the
creating socket. -/
theorem goodCore_createFresh {lobbies : List (String × Lobby)}
    {mc sc : List (String × String)} (h : GoodCore lobbies mc sc)
    {sid code password : String} {newm : Machine}
    (hfresh : lookupA lobbies code = none)
    (hscn : lookupA sc sid = none)
    (hnm : ∀ c l2, lookupA lobbies c = some l2 → lookupA (l2 : Lobby).machines sid = none)
    (hnewm : newm.socketId = some sid) :
    GoodCore
      (insertA lobbies code
        { code := code, password := password, machines := [(sid, newm)],
          spectators := [], songInfo := none })
      (insertA mc sid code) sc := by
  refine ⟨?_, nodupKeys_insertA sid code h.ndM, h.ndS, nodupKeys_insertA code _ h.ndL,
    ?_, ?_, ?_, ?_, ?_, ?_, ?_⟩
  · intro p hp
    rcases mem_insertA hp with h1 | h1
    · rw [h1]
      exact hscn
    · exact h.disj p h1
  · intro p hp
    rcases mem_insertA_nodup h.ndL hp with h1 | ⟨h1, _⟩
    · rw [h1]
    · exact h.codeEq p h1
  · intro p hp
    rcases mem_insertA_nodup h.ndL hp with h1 | ⟨h1, _⟩
    · rw [h1]
      simp [NodupKeys, keysA]
    · exact h.ndLM p h1
  · intro p hp
    rcases mem_insertA_nodup h.ndL hp with h1 | ⟨h1, _⟩
    · rw [h1]
      simp [NodupKeys, keysA]
    · exact h.ndLS p h1
  · intro p hp
    rcases mem_insertA_nodup h.ndL hp with h1 | ⟨h1, hne⟩
    · rw [h1]
      intro q hq
      have hq1 : q = (sid, newm) := by simpa using hq
      rw [hq1]
      exact ⟨lookupA_insertA_self mc sid code, hnewm⟩
    · intro q hq
      have hq1 : q.1 ≠ sid := by
        intro hcq
        have hx := hnm p.1 p.2 (goodCore_lookup_of_mem h h1)
        have := lookupA_isSome_of_mem hq
        rw [hcq, hx] at this
        simp at this
      obtain ⟨ho1, ho2⟩ := h.mOwn p h1 q hq
      exact ⟨by rw [lookupA_insertA_ne mc sid q.1 code hq1]; exact ho1, ho2⟩
  · intro p hp
    rcases mem_insertA_nodup h.ndL hp with h1 | ⟨h1, _⟩
    · rw [h1]
      intro q hq
      simp at hq
    · exact h.sOwn p h1
  · intro p hp
    obtain ⟨l, hl2, hmem2⟩ := h.sRev p hp
    have hcp : p.2 ≠ code := by
      intro hcp
      rw [hcp, hfresh] at hl2
      cases hl2
    exact ⟨l, by rw [lookupA_insertA_ne lobbies code p.2 _ hcp]; exact hl2, hmem2⟩
  · intro p hp
    rcases mem_insertA_nodup h.ndL hp with h1 | ⟨h1, _⟩
    · rw [h1]
      simp
    · exact h.mNe p h1

/-- Core preservation: replacing the machine table of a stored lobby by one
with the same keys and socket ids (the updateMachine / selectSong path; the
song field is unconstrained). -/
theorem goodCore_updateLobbyMachines {lobbies : List (String × Lobby)}
    {mc sc : List (String × String)} (h : GoodCore lobbies mc sc)
    {code : String} {lobby newLobby : Lobby}
    (hl : lookupA lobbies code = some lobby)
    (hcode : newLobby.code = lobby.code)
    (hspect : newLobby.spectators = lobby.spectators)
    (hmm : ∀ q ∈ newLobby.machines, ∃ q0 ∈ lobby.machines,
      q.1 = (q0 : String × Machine).1 ∧ (q.2 : Machine).socketId = (q0.2 : Machine).socketId)
    (hnd : NodupKeys newLobby.machines)
    (hne : newLobby.machines ≠ []) :
    GoodCore (insertA lobbies code newLobby) mc sc := by
  have hmemL : (code, lobby) ∈ lobbies := mem_of_lookupA hl
  refine ⟨h.disj, h.ndM, h.ndS, nodupKeys_insertA code _ h.ndL,
    ?_, ?_, ?_, ?_, ?_, ?_, ?_⟩
  · intro p hp
    rcases mem_insertA_nodup h.ndL hp with h1 | ⟨h1, _⟩
    · rw [h1]
      rw [show (code, newLobby).2.code = newLobby.code from rfl, hcode]
      exact h.codeEq (code, lobby) hmemL
    · exact h.codeEq p h1
  · intro p hp
    rcases mem_insertA_nodup h.ndL hp with h1 | ⟨h1, _⟩
    · rw [h1]
      exact hnd
    · exact h.ndLM p h1
  · intro p hp
    rcases mem_insertA_nodup h.ndL hp with h1 | ⟨h1, _⟩
    · rw [h1]
      rw [show (code, newLobby).2.spectators = newLobby.spectators from rfl, hspect]
      exact h.ndLS (code, lobby) hmemL
    · exact h.ndLS p h1
  · intro p hp
    rcases mem_insertA_nodup h.ndL hp with h1 | ⟨h1, _⟩
    · rw [h1]
      intro q hq
      obtain ⟨q0, hq0, hk, hsk⟩ := hmm q hq
      obtain ⟨ho1, ho2⟩ := h.mOwn (code, lobby) hmemL q0 hq0
      refine ⟨by rw [hk]; exact ho1, ?_⟩
      rw [hsk, ho2, hk]
    · exact h.mOwn p h1
  · intro p hp
    rcases mem_insertA_nodup h.ndL hp with h1 | ⟨h1, _⟩
    · rw [h1]
      intro q hq
      rw [show (code, newLobby).2.spectators = newLobby.spectators from rfl, hspect] at hq
      exact h.sOwn (code, lobby) hmemL q hq
    · exact h.sOwn p h1
  · intro p hp
    obtain ⟨l, hl2, hmem2⟩ := h.sRev p hp
    by_cases hcp : p.2 = code
    · subst hcp
      have : l = lobby := by rw [hl2] at hl; injection hl
      subst this
      refine ⟨newLobby, lookupA_insertA_self lobbies p.2 _, ?_⟩
      rw [hspect]
      exact hmem2
    · exact ⟨l, by rw [lookupA_insertA_ne lobbies code p.2 _ hcp]; exact hl2, hmem2⟩
  · intro p hp
    rcases mem_insertA_nodup h.ndL hp with h1 | ⟨h1, _⟩
    · rw [h1]
      exact hne
    · exact h.mNe p h1

/-- Core preservation: inserting a spectator for a socket that is neither a
machine nor a spectator anywhere. -/
theorem goodCore_insertSpectator {lobbies : List (String × Lobby)}
    {mc sc : List (String × String)} (h : GoodCore lobbies mc sc)
    {sid code : String} {lobby : Lobby} {sp : Spectator}
    (hl : lookupA lobbies code = some lobby)
    (hmcn : lookupA mc sid = none)
    (_hscn : lookupA sc sid = none)
    (hns : ∀ c l2, lookupA lobbies c = some l2 → lookupA (l2 : Lobby).spectators sid = none)
    (hsp : sp.socketId = some sid) :
    GoodCore
      (insertA lobbies code { lobby with spectators := insertA lobby.spectators sid sp })
      mc (insertA sc sid code) := by
  have hmemL : (code, lobby) ∈ lobbies := mem_of_lookupA hl
  have hLs : lookupA lobby.spectators sid = none := hns code lobby hl
  refine ⟨?_, h.ndM, nodupKeys_insertA sid code h.ndS, nodupKeys_insertA code _ h.ndL,
    ?_, ?_, ?_, ?_, ?_, ?_, ?_⟩
  · intro p hp
    have hp1 : p.1 ≠ sid := by
      intro hcq
      have := lookupA_isSome_of_mem hp
      rw [hcq, hmcn] at this
      simp at this
    rw [lookupA_insertA_ne sc sid p.1 code hp1]
    exact h.disj p hp
  · intro p hp
    rcases mem_insertA_nodup h.ndL hp with h1 | ⟨h1, _⟩
    · rw [h1]
      have hcode : lobby.code = code := h.codeEq (code, lobby) hmemL
      exact hcode
    · exact h.codeEq p h1
  · intro p hp
    rcases mem_insertA_nodup h.ndL hp with h1 | ⟨h1, _⟩
    · rw [h1]
      exact h.ndLM (code, lobby) hmemL
    · exact h.ndLM p h1
  · intro p hp
    rcases mem_insertA_nodup h.ndL hp with h1 | ⟨h1, _⟩
    · rw [h1]
      exact nodupKeys_insertA sid sp (h.ndLS (code, lobby) hmemL)
    · exact h.ndLS p h1
  · intro p hp
    rcases mem_insertA_nodup h.ndL hp with h1 | ⟨h1, _⟩
    · rw [h1]
      intro q hq
      exact h.mOwn (code, lobby) hmemL q hq
    · exact h.mOwn p h1
  · intro p hp
    rcases mem_insertA_nodup h.ndL hp with h1 | ⟨h1, hne⟩
    · rw [h1]
      intro q hq
      rcases mem_insertA hq with h2 | h2
      · rw [h2]
        exact ⟨lookupA_insertA_self sc sid code, hsp⟩
      · have hq1 : q.1 ≠ sid := by
          intro hcq
          have := lookupA_isSome_of_mem h2
          rw [hcq, hLs] at this
          simp at this
        obtain ⟨ho1, ho2⟩ := h.sOwn (code, lobby) hmemL q h2
        exact ⟨by rw [lookupA_insertA_ne sc sid q.1 code hq1]; exact ho1, ho2⟩
    · intro q hq
      have hq1 : q.1 ≠ sid := by
        intro hcq
        have hx := hns p.1 p.2 (goodCore_lookup_of_mem h h1)
        have := lookupA_isSome_of_mem hq
        rw [hcq, hx] at this
        simp at this
      obtain ⟨ho1, ho2⟩ := h.sOwn p h1 q hq
      exact ⟨by rw [lookupA_insertA_ne sc sid q.1 code hq1]; exact ho1, ho2⟩
  · intro p hp
    rcases mem_insertA hp with h1 | h1
    · rw [h1]
      refine ⟨{ lobby with spectators := insertA lobby.spectators sid sp },
        lookupA_insertA_self lobbies code _, ?_⟩
      rw [show ((sid, code).1 : String) = sid from rfl]
      rw [show ({ lobby with spectators := insertA lobby.spectators sid sp } : Lobby).spectators
        = insertA lobby.spectators sid sp from rfl]
      rw [lookupA_insertA_self lobby.spectators sid sp]
      rfl
    · obtain ⟨l, hl2, hmem2⟩ := h.sRev p h1
      by_cases hcp : p.2 = code
      · subst hcp
        have : l = lobby := by rw [hl2] at hl; injection hl
        subst this
        refine ⟨{ l with spectators := insertA l.spectators sid sp },
          lookupA_insertA_self lobbies p.2 _, ?_⟩
        by_cases hq1 : p.1 = sid
        · rw [show ({ l with spectators := insertA l.spectators sid sp } : Lobby).spectators
            = insertA l.spectators sid sp from rfl, hq1, lookupA_insertA_self]
          rfl
        · rw [show ({ l with spectators := insertA l.spectators sid sp } : Lobby).spectators
            = insertA l.spectators sid sp from rfl, lookupA_insertA_ne l.spectators sid p.1 sp hq1]
          exact hmem2
      · exact ⟨l, by rw [lookupA_insertA_ne lobbies code p.2 _ hcp]; exact hl2, hmem2⟩
  · intro p hp
    rcases mem_insertA_nodup h.ndL hp with h1 | ⟨h1, _⟩
    · rw [h1]
      exact h.mNe (code, lobby) hmemL
    · exact h.mNe p h1

theorem goodState_createLobby {st : ServerState} (h : GoodState st) (sid code : String)
    (u : MachineU) (pw : String) : GoodState (createLobby sid code u pw st) := by
  have h1 := goodState_preemptSpectator h sid
  have h2 := goodState_preemptMachine h1 sid
  have hscn : lookupA (preemptMachine sid
      (preemptSpectator sid st)).spectatorConnections sid = none :=
    preemptMachine_sc_none h1 sid (preemptSpectator_sc_self h sid)
  have hnm := preemptMachine_not_mmember h1 sid
  unfold createLobby
  by_cases hocc :
      (lookupA (preemptMachine sid (preemptSpectator sid st)).lobbies code).isSome
  · simp only [hocc, if_true]
    exact h2
  · have hfresh :
        lookupA (preemptMachine sid (preemptSpectator sid st)).lobbies code = none := by
      cases hx : lookupA (preemptMachine sid (preemptSpectator sid st)).lobbies code
      · rfl
      · rw [hx] at hocc
        simp at hocc
    simp only [hfresh, Option.isSome_none, Bool.false_eq_true, if_false]
    exact goodCore_createFresh h2 hfresh hscn hnm rfl

theorem goodState_joinLobby {st : ServerState} (h : GoodState st) (sid : String)
    (u : MachineU) (code pw : String) : GoodState (joinLobby sid u code pw st).2 := by
  unfold joinLobby
  by_cases hcj : canJoinLobby st code pw = true
  · have h1 := goodState_preemptSpectator h sid
    have h2 := goodState_preemptMachine h1 sid
    have hscn : lookupA (preemptMachine sid
        (preemptSpectator sid st)).spectatorConnections sid = none :=
      preemptMachine_sc_none h1 sid (preemptSpectator_sc_self h sid)
    have hnm := preemptMachine_not_mmember h1 sid
    rw [if_neg (by simp [hcj])]
    cases hlb : lookupA (preemptMachine sid (preemptSpectator sid st)).lobbies code with
    | none =>
      simp only [hlb]
      exact h2
    | some lobby =>
      simp only [hlb]
      exact goodCore_insertMachine h2 hlb hscn hnm rfl
  · rw [if_pos (by simp [hcj])]
    exact h

theorem goodState_updateMachine {st : ServerState} (h : GoodState st) (sid : String)
    (u : MachineU) : GoodState (updateMachine sid u st).2 := by
  cases hmc : lookupA st.machineConnections sid with
  | none => simpa [updateMachine, hmc] using h
  | some code =>
    cases hl : lookupA st.lobbies code with
    | none => simpa [updateMachine, hmc, hl] using h
    | some lobby =>
      have hmemL : (code, lobby) ∈ st.lobbies := mem_of_lookupA hl
      have hmm1 : ∀ q ∈ (mergedLobby lobby sid u).machines, ∃ q0 ∈ lobby.machines,
          (q : String × Machine).1 = (q0 : String × Machine).1 ∧
          (q.2 : Machine).socketId = (q0.2 : Machine).socketId := by
        intro q hq
        cases hm0 : lookupA lobby.machines sid with
        | none =>
          rw [mergedLobby, hm0] at hq
          exact ⟨q, hq, rfl, rfl⟩
        | some m =>
          rw [mergedLobby, hm0] at hq
          rcases mem_insertA hq with h1 | h1
          · exact ⟨(sid, m), mem_of_lookupA hm0, by rw [h1], by rw [h1]; rfl⟩
          · exact ⟨q, h1, rfl, rfl⟩
      have hnd1 : NodupKeys (mergedLobby lobby sid u).machines := by
        cases hm0 : lookupA lobby.machines sid with
        | none =>
          rw [mergedLobby, hm0]
          exact h.ndLM (code, lobby) hmemL
        | some m =>
          rw [mergedLobby, hm0]
          exact nodupKeys_insertA sid _ (h.ndLM (code, lobby) hmemL)
      have hne1 : (mergedLobby lobby sid u).machines ≠ [] := by
        cases hm0 : lookupA lobby.machines sid with
        | none =>
          rw [mergedLobby, hm0]
          exact h.mNe (code, lobby) hmemL
        | some m =>
          rw [mergedLobby, hm0]
          exact insertA_ne_nil _ sid _
      have hcode1 : (mergedLobby lobby sid u).code = lobby.code := by
        cases hm0 : lookupA lobby.machines sid <;> rw [mergedLobby, hm0]
      have hspect1 : (mergedLobby lobby sid u).spectators = lobby.spectators := by
        cases hm0 : lookupA lobby.machines sid <;> rw [mergedLobby, hm0]
      have hmm2 : ∀ q ∈ (mergedLobby lobby sid u).machines.map
          (fun p => ((p : String × Machine).1, resetMachine p.2)), ∃ q0 ∈ lobby.machines,
          (q : String × Machine).1 = (q0 : String × Machine).1 ∧
          (q.2 : Machine).socketId = (q0.2 : Machine).socketId := by
        intro q hq
        rcases List.mem_map.mp hq with ⟨q0, hq0, hqe⟩
        obtain ⟨q00, hq00, hk, hsk⟩ := hmm1 q0 hq0
        refine ⟨q00, hq00, ?_, ?_⟩
        · rw [← hqe]
          exact hk
        · rw [← hqe]
          show (resetMachine q0.2).socketId = _
          rw [show (resetMachine q0.2).socketId = (q0.2 : Machine).socketId from rfl]
          exact hsk
      by_cases htr : ¬ inSongSelect lobby = true ∧
          inSongSelect (mergedLobby lobby sid u) = true
      · have h1 : inSongSelect lobby = false := by
          have := htr.1
          simpa using this
        have h2 := htr.2
        have hcore := @goodCore_updateLobbyMachines _ _ _ h code lobby
          { mergedLobby lobby sid u with
            songInfo := none
            machines := (mergedLobby lobby sid u).machines.map
              fun p => (p.1, resetMachine p.2) }
          hl hcode1 hspect1 hmm2 (nodupKeys_map_snd _ hnd1)
          (fun hcon => hne1 (List.map_eq_nil_iff.mp hcon))
        simpa [GoodState, updateMachine, hmc, hl, h1, h2, broadcastLobbyState] using hcore
      · have hcond : ¬ (inSongSelect lobby = false ∧
            inSongSelect (mergedLobby lobby sid u) = true) := by
          simpa using htr
        have hcore := goodCore_updateLobbyMachines h hl hcode1 hspect1 hmm1 hnd1 hne1
        simpa [GoodState, updateMachine, hmc, hl, hcond, broadcastLobbyState] using hcore

theorem goodState_selectSong {st : ServerState} (h : GoodState st) (sid : String)
    (si : SongInfo) : GoodState (selectSong sid si st).2 := by
  cases hmc : lookupA st.machineConnections sid with
  | none => simpa [selectSong, hmc] using h
  | some code =>
    cases hl : lookupA st.lobbies code with
    | none => simpa [selectSong, hmc, hl] using h
    | some lobby =>
      have hmemL : (code, lobby) ∈ st.lobbies := mem_of_lookupA hl
      by_cases hsi : lobby.songInfo.isSome
      · simpa [selectSong, hmc, hl, hsi] using h
      · have hx : GoodCore st.lobbies st.machineConnections st.spectatorConnections := h
        have hcore := @goodCore_updateLobbyMachines _ _ _ hx code lobby
          { lobby with songInfo := some si } hl rfl rfl
          (fun q hq => ⟨q, hq, rfl, rfl⟩)
          (hx.ndLM (code, lobby) hmemL) (hx.mNe (code, lobby) hmemL)
        simpa [GoodState, selectSong, hmc, hl, hsi, broadcastLobbyState] using hcore

theorem goodState_spectateLobby {st : ServerState} (h : GoodState st) (sid : String)
    (spec : SpectatorU) (code pw : String) :
    GoodState (spectateLobby sid spec code pw st).2 := by
  cases hlb : lookupA st.lobbies code with
  | none => simpa [spectateLobby, hlb] using h
  | some lobby =>
    by_cases hcond : ¬ memA st.machineConnections sid = true ∧
        canJoinLobby st code pw = true
    · have h1 := goodState_preemptSpectator h sid
      cases hl1 : lookupA (preemptSpectator sid st).lobbies code with
      | none =>
        simpa [spectateLobby, hlb, hcond.1, hcond.2, hl1] using h1
      | some lobby1 =>
        have hmcn : lookupA (preemptSpectator sid st).machineConnections sid = none := by
          rw [preemptSpectator_mc sid]
          cases hx : lookupA st.machineConnections sid
          · rfl
          · exact absurd (by simp [memA, hx]) hcond.1
        have hscn := preemptSpectator_sc_self h sid
        have hns := preemptSpectator_not_smember h sid
        have hcore := @goodCore_insertSpectator _ _ _ h1 sid code lobby1
          { profileName := spec.profileName, socketId := some sid } hl1 hmcn hscn hns rfl
        simpa [GoodState, spectateLobby, hlb, hcond.1, hcond.2, hl1] using hcore
    · have hres : (spectateLobby sid spec code pw st).2 = st := by
        simp only [spectateLobby, hlb]
        rw [if_neg hcond]
      rw [hres]
      exact h

theorem goodState_lobbyStateOp {st : ServerState} (h : GoodState st) (sid : String) :
    GoodState (lobbyStateOp sid st).2 := by
  cases hmc : lookupA st.machineConnections sid with
  | none => simpa [lobbyStateOp, hmc] using h
  | some code =>
    cases hl : lookupA st.lobbies code with
    | none => simpa [lobbyStateOp, hmc, hl] using h
    | some lobby => simpa [lobbyStateOp, hmc, hl, broadcastLobbyState] using h

theorem goodState_handleDisconnect {st : ServerState} (h : GoodState st) (sid : String) :
    GoodState (handleDisconnect sid st) := by
  by_cases hm : memA st.machineConnections sid = true
  · by_cases hs : memA (disconnectMachine sid st).2.spectatorConnections sid = true
    · rw [show handleDisconnect sid st = (disconnectSpectator sid (disconnectMachine sid st).2).2
        from by simp [handleDisconnect, hm, hs]]
      exact goodState_disconnectSpectator (goodState_disconnectMachine h sid) sid
    · rw [show handleDisconnect sid st = (disconnectMachine sid st).2
        from by simp [handleDisconnect, hm, hs]]
      exact goodState_disconnectMachine h sid
  · by_cases hs : memA st.spectatorConnections sid = true
    · rw [show handleDisconnect sid st = (disconnectSpectator sid st).2
        from by simp [handleDisconnect, hm, hs]]
      exact goodState_disconnectSpectator h sid
    · rw [show handleDisconnect sid st = st from by simp [handleDisconnect, hm, hs]]
      exact h

theorem goodState_step {st : ServerState} (h : GoodState st) (op : Op) :
    GoodState (step op st) := by
  cases op with
  | createLobby sid code machine password => exact goodState_createLobby h sid code machine password
  | joinLobby sid machine code password => exact goodState_joinLobby h sid machine code password
  | updateMachine sid machine => exact goodState_updateMachine h sid machine
  | selectSong sid songInfo => exact goodState_selectSong h sid songInfo
  | leaveLobby sid => exact goodState_disconnectMachine h sid
  | spectateLobby sid spec code password => exact goodState_spectateLobby h sid spec code password
  | searchLobby => exact h
  | lobbyState sid => exact goodState_lobbyStateOp h sid
  | disconnect sid => exact goodState_handleDisconnect h sid

theorem goodState_run (ops : List Op) : GoodState (run ops) := by
  suffices hgen : ∀ st, GoodState st →
      GoodState (ops.foldl (fun st op => step op st) st) by
    exact hgen initState goodState_init
  induction ops with
  | nil => intro st h; simpa using h
  | cons op rest ih =>
    intro st h
    exact ih _ (goodState_step h op)

/-- A code absent from the lobby store is absent from the searchLobby
snapshot. -/
theorem searchLobby_absent {st : ServerState} (h : GoodState st) {code : String}
    (hn : lookupA st.lobbies code = none) :
    ∀ info ∈ searchLobby st, (info : LobbyInfo).code ≠ code := by
  have hx : GoodCore st.lobbies st.machineConnections st.spectatorConnections := h
  intro info hinfo
  rcases List.mem_map.mp hinfo with ⟨p, hp, hie⟩
  have hc : (p.2 : Lobby).code = p.1 := hx.codeEq p hp
  intro hcc
  rw [← hie] at hcc
  have hpc : p.1 = code := by rw [← hc]; exact hcc
  rw [← hpc] at hn
  have hs := lookupA_eq_some_of_mem hx.ndL hp
  rw [hn] at hs
  cases hs

/-- C3: after any sequence of operations from the empty coordinator state, a
connection id appears in at most one of the two reverse indices — the
machine-owner and spectator-owner domains are disjoint and each is
duplicate-free (a connection owns at most one lobby per role, and never both
roles at once). -/
theorem roleExclusionInvariant (ops : List Op) :
    (∀ p ∈ (run ops).machineConnections,
      lookupA (run ops).spectatorConnections (p : String × String).1 = none) ∧
    NodupKeys (run ops).machineConnections ∧
    NodupKeys (run ops).spectatorConnections := by
  have h : GoodCore (run ops).lobbies (run ops).machineConnections
      (run ops).spectatorConnections := goodState_run ops
  exact ⟨h.disj, h.ndM, h.ndS⟩

/-- C5: in any reachable state, when a lobby consists of exactly one machine
entry and that machine leaves — through leaveLobby or through a transport
disconnect — the lobby is deleted (gone from the store and from the
searchLobbies snapshot) and every spectator of it has been force-disconnected
(a registry disconnect was issued and its reverse-index entry removed); and
after any sequence of operations no stored lobby has zero machines. -/
theorem lastMachineTeardown (ops : List Op) (code : String) (lobby : Lobby)
    (conn : String) (m : Machine)
    (hl : lookupA (run ops).lobbies code = some lobby)
    (hm : lobby.machines = [(conn, m)]) :
    (lookupA (step (Op.leaveLobby conn) (run ops)).lobbies code = none ∧
      (∀ info ∈ searchLobby (step (Op.leaveLobby conn) (run ops)),
        (info : LobbyInfo).code ≠ code) ∧
      ∀ q ∈ lobby.spectators,
        Effect.clientDisconnect (q : String × Spectator).1 ∈
          (step (Op.leaveLobby conn) (run ops)).effects ∧
        lookupA (step (Op.leaveLobby conn) (run ops)).spectatorConnections q.1 = none) ∧
    (lookupA (step (Op.disconnect conn) (run ops)).lobbies code = none ∧
      (∀ info ∈ searchLobby (step (Op.disconnect conn) (run ops)),
        (info : LobbyInfo).code ≠ code) ∧
      ∀ q ∈ lobby.spectators,
        Effect.clientDisconnect (q : String × Spectator).1 ∈
          (step (Op.disconnect conn) (run ops)).effects ∧
        lookupA (step (Op.disconnect conn) (run ops)).spectatorConnections q.1 = none) ∧
    (∀ (ops2 : List Op) (c2 : String) (l2 : Lobby),
      lookupA (run ops2).lobbies c2 = some l2 → (l2 : Lobby).machines ≠ []) := by
  have hG : GoodState (run ops) := goodState_run ops
  have hx : GoodCore (run ops).lobbies (run ops).machineConnections
      (run ops).spectatorConnections := hG
  have hm2 : lookupA lobby.machines conn = some m := by
    rw [hm]
    simp [lookupA]
  have hmc : lookupA (run ops).machineConnections conn = some code :=
    (goodCore_machine_of_lookup hG hl hm2).1
  have hz : getPlayerCountForLobby { lobby with machines := eraseA lobby.machines conn } = 0 := by
    apply getPlayerCount_of_nil
    rw [show ({ lobby with machines := eraseA lobby.machines conn } : Lobby).machines
      = eraseA lobby.machines conn from rfl, hm]
    simp [eraseA]
  have hres := disconnectMachine_teardown_result hG hmc hl hm2 hz
  have hleave : step (Op.leaveLobby conn) (run ops) = (disconnectMachine conn (run ops)).2 := rfl
  have hdisc : step (Op.disconnect conn) (run ops) = (disconnectMachine conn (run ops)).2 := by
    have hmm : memA (run ops).machineConnections conn = true := by simp [memA, hmc]
    have hscn : lookupA (run ops).spectatorConnections conn = none :=
      hx.disj (conn, code) (mem_of_lookupA hmc)
    have hs2 : lookupA (disconnectMachine conn (run ops)).2.spectatorConnections conn = none :=
      disconnectMachine_sc_none hG conn hscn
    show handleDisconnect conn (run ops) = (disconnectMachine conn (run ops)).2
    simp [handleDisconnect, memA, hmc, hs2]
  have hGafter : GoodState (disconnectMachine conn (run ops)).2 :=
    goodState_disconnectMachine hG conn
  refine ⟨?_, ?_, ?_⟩
  · rw [hleave]
    exact ⟨hres.2.1, searchLobby_absent hGafter hres.2.1, hres.2.2⟩
  · rw [hdisc]
    exact ⟨hres.2.1, searchLobby_absent hGafter hres.2.1, hres.2.2⟩
  · intro ops2 c2 l2 hc2
    have hx2 : GoodCore (run ops2).lobbies (run ops2).machineConnections
        (run ops2).spectatorConnections := goodState_run ops2
    exact hx2.mNe (c2, l2) (mem_of_lookupA hc2)

/-- The machine entry of the lone machine of the witness lobbies. -/
def demoMachineSelect : Machine :=
  { player1 := some demoPlayerSelect, player2 := none,
    socketId := some "m1", ready := none }

/-- Create a lobby and let a second connection spectate it. -/
def demoOpsSpectate : List Op :=
  [Op.createLobby "m1" "AAAA" (machineUOf (some demoPlayerSelect)) "",
   Op.spectateLobby "s1" { profileName := some "E.Norma" } "AAAA" ""]

/-- The lobby stored after `demoOpsSpectate`. -/
def demoLobbySpectate : Lobby :=
  { code := "AAAA", password := ""
    machines := [("m1", demoMachineSelect)]
    spectators := [("s1", { profileName := some "E.Norma", socketId := some "s1" })]
    songInfo := none }

/-- Witness for C5: the lone machine leaves a lobby with one spectator; the
lobby disappears and the spectator is force-disconnected and deindexed. -/
theorem lastMachineTeardown_witness :
    lookupA (run demoOpsSpectate).lobbies "AAAA" = some demoLobbySpectate ∧
    lookupA (step (Op.leaveLobby "m1") (run demoOpsSpectate)).lobbies "AAAA" = none ∧
    Effect.clientDisconnect "s1" ∈ (step (Op.leaveLobby "m1") (run demoOpsSpectate)).effects ∧
    lookupA (step (Op.leaveLobby "m1") (run demoOpsSpectate)).spectatorConnections "s1" =
      none := by
  have h := lastMachineTeardown demoOpsSpectate "AAAA" demoLobbySpectate "m1"
    demoMachineSelect (by decide) (by decide)
  have hq := h.1.2.2 ("s1", { profileName := some "E.Norma", socketId := some "s1" })
    (by decide)
  exact ⟨by decide, h.1.1, hq.1, hq.2⟩

/-- C10: lobby teardown is keyed on the remaining player count, not the
machine count.  After removing the caller's machine entry, a zero player sum
deletes the lobby and force-disconnects every spectator — even if machine
entries remain — while a positive sum keeps the lobby with the entry removed
and broadcasts the updated lobbyState to the remaining room. -/
theorem teardownKeyedOnPlayerCount (ops : List Op) (conn code : String)
    (lobby : Lobby) (m : Machine)
    (hl : lookupA (run ops).lobbies code = some lobby)
    (hm : lookupA lobby.machines conn = some m) :
    (getPlayerCountForLobby { lobby with machines := eraseA lobby.machines conn } = 0 →
      lookupA (disconnectMachine conn (run ops)).2.lobbies code = none ∧
      ∀ q ∈ lobby.spectators,
        Effect.clientDisconnect (q : String × Spectator).1 ∈
          (disconnectMachine conn (run ops)).2.effects ∧
        lookupA (disconnectMachine conn (run ops)).2.spectatorConnections q.1 = none) ∧
    (getPlayerCountForLobby { lobby with machines := eraseA lobby.machines conn } ≠ 0 →
      lookupA (disconnectMachine conn (run ops)).2.lobbies code =
        some { lobby with machines := eraseA lobby.machines conn } ∧
      (disconnectMachine conn (run ops)).2.effects =
        (run ops).effects ++ [Effect.sendLobby code]) := by
  have hG : GoodState (run ops) := goodState_run ops
  have hmc : lookupA (run ops).machineConnections conn = some code :=
    (goodCore_machine_of_lookup hG hl hm).1
  constructor
  · intro hz
    have hres := disconnectMachine_teardown_result hG hmc hl hm hz
    exact ⟨hres.2.1, hres.2.2⟩
  · intro hnz
    have hres := disconnectMachine_keep_result hG hmc hl hm hnz
    refine ⟨?_, hres.2.2.1⟩
    rw [hres.2.1]
    exact lookupA_insertA_self _ code _

/-- Create a lobby with one player-carrying machine and join a playerless
second machine. -/
def demoOpsTwoMachines : List Op :=
  [Op.createLobby "m1" "AAAA" (machineUOf (some demoPlayerSelect)) "",
   Op.joinLobby "m2" (machineUOf none) "AAAA" ""]

/-- The lobby stored after `demoOpsTwoMachines`. -/
def demoLobbyTwoMachines : Lobby :=
  { code := "AAAA", password := ""
    machines := [("m1", demoMachineSelect),
      ("m2", { player1 := none, player2 := none, socketId := some "m2", ready := none })]
    spectators := [], songInfo := none }

/-- Witness for C10: the player-carrying machine disconnects; a playerless
machine entry remains, the remaining player sum is zero, and the lobby is
deleted anyway. -/
theorem teardownKeyedOnPlayerCount_witness :
    lookupA (run demoOpsTwoMachines).lobbies "AAAA" = some demoLobbyTwoMachines ∧
    eraseA demoLobbyTwoMachines.machines "m1" ≠ [] ∧
    getPlayerCountForLobby
      { demoLobbyTwoMachines with machines := eraseA demoLobbyTwoMachines.machines "m1" } = 0 ∧
    lookupA (disconnectMachine "m1" (run demoOpsTwoMachines)).2.lobbies "AAAA" = none := by
  have h := teardownKeyedOnPlayerCount demoOpsTwoMachines "m1" "AAAA"
    demoLobbyTwoMachines demoMachineSelect (by decide) (by decide)
  exact ⟨by decide, by decide, by decide, (h.1 (by decide)).1⟩
end SyncStart
